import Mathlib

/-!
# fan2go: the control step, curve learning and the fan backends

A shallow embedding of `internal/backend/main.go`, `internal/fans/hwmon.go` and
`internal/fans/file.go`.

Conventions of the embedding:

* Go's `int` is modelled by `Int`.  The conversion of the thresholds to
  milli-degrees (`* 1000`) wraps around in 64 bits (`wrapInt64`); the other
  integer operations are not bounded.
* A `float64` value is a rational number that binary64 represents
  (`IsFloat64`).  Every floating-point operation, and every conversion of an
  `int`, rounds the exact result to the nearest such value, ties to even
  (`float64`, `fsub`, `fmul`, `fdiv`).  The exponent range of binary64 is not
  modelled (the values computed from 64-bit integers stay inside it), and there
  are no infinities or NaN: a division by zero, which yields one of them in Go,
  yields 0 here.
* The conversion `int(f)` truncates toward zero (`goInt`).
* A Go result pair `(value, err)` is a pair `Int × Option String`, `none`
  standing for a `nil` error.
* A `nil` pointer dereference (a panic) is the value `none` of an `Option`.
* Log output is not modelled.
-/

/-- Go's conversion `int(f)` of a floating-point value: the fractional part is
discarded (truncation toward zero). -/
def goInt (q : ℚ) : Int := if 0 ≤ q then ⌊q⌋ else ⌈q⌉

/-- Rounding to the nearest integer, a tie going to the even neighbour. -/
def roundHalfEven (x : ℚ) : Int :=
  if x - ⌊x⌋ < 1 / 2 then ⌊x⌋
  else if 1 / 2 < x - ⌊x⌋ then ⌊x⌋ + 1
  else if ⌊x⌋ % 2 = 0 then ⌊x⌋ else ⌊x⌋ + 1

/-- Rounding to binary64 (53 significant bits, round to nearest, ties to even):
for `2 ^ e ≤ |q| < 2 ^ (e + 1)` the result is the multiple of `2 ^ (e - 52)`
nearest to `q`.  This is Go's conversion `float64(n)` of an integer, and the
rounding that ends every floating-point operation. -/
def float64 (q : ℚ) : ℚ :=
  if q = 0 then 0
  else roundHalfEven (q / 2 ^ (Int.log 2 |q| - 52)) * 2 ^ (Int.log 2 |q| - 52)

/-- The values of binary64: a significand of at most 53 bits times a power of
two. -/
def IsFloat64 (f : ℚ) : Prop := ∃ m k : ℤ, |m| ≤ 2 ^ 53 ∧ f = m * 2 ^ k

/-- The `float64` subtraction `a - b`. -/
def fsub (a b : ℚ) : ℚ := float64 (a - b)

/-- The `float64` multiplication `a * b`. -/
def fmul (a b : ℚ) : ℚ := float64 (a * b)

/-- The `float64` division `a / b`. -/
def fdiv (a b : ℚ) : ℚ := float64 (a / b)

/-- The value of a 64-bit `int` after an operation whose exact result is `x`
(two's complement wrap-around). -/
def wrapInt64 (x : Int) : Int := (x + 2 ^ 63) % 2 ^ 64 - 2 ^ 63

/-- The exponent of the binade of `n / 255`: the least `k` with `255 ≤ n * 2 ^ k`
(for `1 ≤ n ≤ 254`). -/
def rtK (n : ℕ) : ℕ := ((List.range 9).find? fun k => decide (255 ≤ n * 2 ^ k)).getD 0

/-- The significand of `n / 255` rounded to binary64, as an integer. -/
def rtM (n : ℕ) : ℕ := (2 * n * 2 ^ (rtK n + 52) + 255) / 510

/-- The binade of the product of the rounded `n / 255` and 255: the `j` with
`2 ^ (j - 1) ≤ product < 2 ^ j`. -/
def rtJ (n : ℕ) : ℕ :=
  ((List.range 10).find? fun j =>
    decide (2 ^ (j + rtK n + 51) ≤ 255 * rtM n ∧ 255 * rtM n < 2 ^ (j + rtK n + 52))).getD 0

/-- The integer conditions under which `(n / 255) * 255`, computed in binary64,
is `n` again. -/
def roundTripOk (n : ℕ) : Bool :=
  decide (255 ≤ n * 2 ^ rtK n ∧ n * 2 ^ rtK n < 510 ∧
    2 * n * 2 ^ (rtK n + 52) < 510 * rtM n + 255 ∧
    510 * rtM n < 2 * n * 2 ^ (rtK n + 52) + 255 ∧
    (n * 2 ^ (rtK n + 52) ≤ 255 * rtM n ∨
      (rtJ n ≤ 53 ∧ 2 ^ (rtJ n + rtK n + 51) ≤ 255 * rtM n ∧
        255 * rtM n < 2 ^ (rtJ n + rtK n + 52) ∧
        255 * rtM n ≤ n * 2 ^ (rtK n + 52) ∧
        n * 2 ^ (rtK n + 52) * 2 ^ (54 - rtJ n) <
          2 ^ (rtK n + 52) + 255 * rtM n * 2 ^ (54 - rtJ n))))

namespace rolling

/-- Modelled from the spec: the rolling window of the package
`github.com/asecurityteam/rolling`, which is not among the sources.  A window has
a fixed capacity; `samples` are the values currently held, oldest first. -/
structure PointPolicy where
  capacity : Nat
  samples : List ℚ

/-- Modelled from the spec: `rolling.NewPointPolicy(rolling.NewWindow(capacity))`,
a window of the given capacity holding no sample yet. -/
def NewPointPolicy (capacity : Nat) : PointPolicy := ⟨capacity, []⟩

/-- Modelled from the spec: `Append` adds a sample and discards the oldest ones
once the capacity is exceeded. -/
def PointPolicy.Append (w : PointPolicy) (value : ℚ) : PointPolicy :=
  { w with samples := (w.samples ++ [value]).drop (w.samples.length + 1 - w.capacity) }

/-- Modelled from the spec: `rolling.Avg`, the unweighted mean of the samples
currently held.  The mean is the exact one: the package is not among the
sources and the spec does not say how it rounds.  (For a window holding nothing
the source divides zero by zero; here the quotient is `0`.) -/
def Avg (samples : List ℚ) : ℚ := samples.sum / (samples.length : ℚ)

/-- Modelled from the spec: `Reduce` applies an aggregation to the current
contents. -/
def PointPolicy.Reduce (w : PointPolicy) (f : List ℚ → ℚ) : ℚ := f w.samples

end rolling

namespace util

/-- Modelled from the spec: the raw I/O primitive `readInt(path) -> (int, error)`,
`writeInt(value, path) -> error` of package `util`, which is not among the
sources.  `read path` is the result of reading the numeric file `path`;
`accept path value` is the device's answer to writing `value` to `path`: an
error, or the value the file holds afterwards (a driver may keep or alter what
was written); `writes` logs every call of `WriteIntToFile`, oldest first. -/
structure Sysfs where
  read : String → Int × Option String
  accept : String → Int → Except String Int
  writes : List (String × Int)

/-- Modelled from the spec: `util.ReadIntFromFile(path)`. -/
def ReadIntFromFile (fs : Sysfs) (path : String) : Int × Option String := fs.read path

/-- Modelled from the spec: `util.WriteIntToFile(value, path)`; returns the error
(`none` for `nil`) and the file system after the call. -/
def WriteIntToFile (value : Int) (path : String) (fs : Sysfs) : Option String × Sysfs :=
  match fs.accept path value with
  | .error e => (some e, { fs with writes := fs.writes ++ [(path, value)] })
  | .ok stored =>
    (none, { fs with
      read := fun p => if p = path then (stored, none) else fs.read p
      writes := fs.writes ++ [(path, value)] })

end util

namespace persistence

/-- Modelled from the spec: the key-value store `storeSample(bucket, key,
intValue) -> error`, `readSample(bucket, key) -> (int, error)` of package
`persistence`, which is not among the sources.  `read bucket key` is the result
of reading a sample; `accept bucket key value` is the error of storing one
(`none` when it is stored). -/
structure Store where
  read : String → String → Int × Option String
  accept : String → String → Int → Option String

/-- Modelled from the spec: `persistence.ReadInt(bucket, key)`. -/
def ReadInt (db : Store) (bucket key : String) : Int × Option String := db.read bucket key

/-- Modelled from the spec: `persistence.StoreInt(bucket, key, value)`; returns
the error and the store after the call. -/
def StoreInt (bucket key : String) (value : Int) (db : Store) : Option String × Store :=
  match db.accept bucket key value with
  | some e => (some e, db)
  | none =>
    (none, { db with
      read := fun b k => if b = bucket ∧ k = key then (value, none) else db.read b k })

end persistence

namespace backend

def MaxPwmValue : Int := 255
def MinPwmValue : Int := 0
def BucketFans : String := "fans"
def BucketSensors : String := "sensors"

/-- The fields of `config.FanConfig` that the backend reads. -/
structure FanConfig where
  Id : String
  Platform : String
  Fan : Int
  Sensor : String
  NeverStop : Bool

/-- The fields of `config.SensorConfig` that the backend reads; `Min` and `Max`
are in degrees. -/
structure SensorConfig where
  Id : String
  Platform : String
  Index : Int
  Min : Int
  Max : Int

/-- The type `data.Sensor`; `Config` is a pointer that is `nil` for a sensor
without configuration. -/
structure Sensor where
  Name : String
  Index : Int
  Input : String
  Config : Option SensorConfig
  Values : rolling.PointPolicy

/-- The type `data.Fan`.  `FanCurveData` is a pointer to a Go map from duty cycle
to a window of RPM samples: `none` is the `nil` pointer, and the map is an
association list in which the bucket of a key is its first entry. -/
structure Fan where
  Name : String
  Index : Int
  PwmOutput : String
  RpmInput : String
  StartPwm : Int
  MaxPwm : Int
  Config : Option FanConfig
  FanCurveData : Option (List (Int × rolling.PointPolicy))

/-- The Go function `getMaxPwmValue`. -/
def getMaxPwmValue (fan : Fan) : Int := fan.MaxPwm

/-- The Go function `getMinPwmValue`; `none` when `fan.Config` is `nil`. -/
def getMinPwmValue (db : persistence.Store) (fan : Fan) : Option Int :=
  match fan.Config with
  | none => none
  | some cfg =>
    if cfg.NeverStop then
      some fan.StartPwm
    else
      let key := fan.Name ++ "_pwm_min"
      let (result, err) := persistence.ReadInt db BucketFans key
      let result := if err ≠ none then MinPwmValue else result
      some result

/-- The Go function `getPwm`. -/
def getPwm (fs : util.Sysfs) (fan : Fan) : Int :=
  let (value, err) := util.ReadIntFromFile fs fan.PwmOutput
  if err ≠ none then MinPwmValue else value

/-- The first half of the Go function `setPwm` (up to the assignment of
`target`): the requested speed is clamped and mapped into the fan's range. -/
def setPwmTarget (db : persistence.Store) (fan : Fan) (pwm : Int) : Option Int :=
  let pwm := if pwm > MaxPwmValue then MaxPwmValue
    else if pwm < MinPwmValue then MinPwmValue else pwm
  let maxPwm := getMaxPwmValue fan
  match getMinPwmValue db fan with
  | none => none
  | some minPwm =>
    some (minPwm + goInt (fmul (fdiv (float64 (pwm : ℚ)) (MaxPwmValue : ℚ))
      (fsub (float64 (maxPwm : ℚ)) (float64 (minPwm : ℚ)))))

/-- What a call of `setPwm` leaves behind: the mapped command `target`, the
returned error and the file system. -/
structure PwmOutcome where
  target : Int
  err : Option String
  fs : util.Sysfs

/-- The Go function `setPwm`. -/
def setPwm (db : persistence.Store) (fan : Fan) (pwm : Int) (fs : util.Sysfs) :
    Option PwmOutcome :=
  match setPwmTarget db fan pwm with
  | none => none
  | some target =>
    let current := getPwm fs fan
    if target = current then
      some ⟨target, none, fs⟩
    else
      let (err, fs) := util.WriteIntToFile target fan.PwmOutput fs
      some ⟨target, err, fs⟩

/-- The result of `calculateTargetSpeed`: the returned speed, together with the
divisors of the floating-point divisions that were evaluated on the way, in
order of evaluation.  (When a divisor is zero, Go converts an infinity or a NaN
to `int`, with an implementation-specific result; `value` is then 0 and has no
meaning.) -/
structure TargetEval where
  value : Int
  divisors : List ℚ

/-- The Go function `calculateTargetSpeed`; `SensorMap` is the global map from
sensor identifier to sensor.  `none` when a `nil` pointer is dereferenced (the
fan or the sensor has no configuration, or the identifier is not in the map). -/
def calculateTargetSpeed (SensorMap : String → Option Sensor) (fan : Fan) :
    Option TargetEval :=
  match fan.Config with
  | none => none
  | some fanConfig =>
    match SensorMap fanConfig.Sensor with
    | none => none
    | some sensor =>
      match sensor.Config with
      | none => none
      | some sensorConfig =>
        let minTemp := wrapInt64 (sensorConfig.Min * 1000)
        let maxTemp := wrapInt64 (sensorConfig.Max * 1000)
        let avgTemp := goInt (sensor.Values.Reduce rolling.Avg)
        if avgTemp ≥ maxTemp then
          some ⟨255, []⟩
        else if avgTemp ≤ minTemp then
          some ⟨0, []⟩
        else
          let divisor := fsub (float64 (maxTemp : ℚ)) (float64 (minTemp : ℚ))
          let ratio := fdiv (fsub (float64 (avgTemp : ℚ)) (float64 (minTemp : ℚ))) divisor
          some ⟨goInt (fmul ratio 255), [divisor]⟩

/-- The Go function `setOptimalFanSpeed`; the error of `setPwm` is only logged
there and is kept in the outcome. -/
def setOptimalFanSpeed (SensorMap : String → Option Sensor) (db : persistence.Store)
    (fan : Fan) (fs : util.Sysfs) : Option PwmOutcome :=
  match calculateTargetSpeed SensorMap fan with
  | none => none
  | some target => setPwm db fan target.value fs

/-- The local variables of the loop of `updatePwmBoundaries`. -/
structure Boundaries where
  startPwm : Int
  maxPwm : Int
  maxRpm : Int

/-- The truncated mean `int(window.Reduce(rolling.Avg))` of a bucket. -/
def avgRpmOf (window : rolling.PointPolicy) : Int := goInt (window.Reduce rolling.Avg)

/-- One iteration of the loop of `updatePwmBoundaries` over the sorted keys.
(Every key of the loop is a key of the map, so the lookup finds a bucket.) -/
def scanStep (pwmRpmMap : List (Int × rolling.PointPolicy)) (st : Boundaries) (pwm : Int) :
    Boundaries :=
  match pwmRpmMap.lookup pwm with
  | none => st
  | some window =>
    let avgRpm := avgRpmOf window
    let st := if avgRpm > st.maxRpm then { st with maxRpm := avgRpm, maxPwm := pwm } else st
    if avgRpm > 0 ∧ pwm < st.startPwm then { st with startPwm := pwm } else st

/-- The keys of the map for which there is data, sorted increasingly
(`sort.Ints`). -/
def sortedKeys (pwmRpmMap : List (Int × rolling.PointPolicy)) : List Int :=
  ((pwmRpmMap.map Prod.fst).dedup).insertionSort (fun a b => a ≤ b)

/-- The first part of the Go function `updatePwmBoundaries` (up to the end of
the loop): the boundaries derived from the curve data. -/
def learnBoundaries (fanCurveData : Option (List (Int × rolling.PointPolicy))) : Boundaries :=
  match fanCurveData with
  | none => { startPwm := 0, maxPwm := 255, maxRpm := 0 }
  | some pwmRpmMap =>
    (sortedKeys pwmRpmMap).foldl (scanStep pwmRpmMap) { startPwm := 255, maxPwm := 255, maxRpm := 0 }

/-- The Go function `updatePwmBoundaries`. -/
def updatePwmBoundaries (fan : Fan) : Fan :=
  let st := learnBoundaries fan.FanCurveData
  let fan := if fan.StartPwm ≠ st.startPwm then { fan with StartPwm := st.startPwm } else fan
  if fan.MaxPwm ≠ st.maxPwm then { fan with MaxPwm := st.maxPwm } else fan

/-- What a call of `updateSensor` leaves behind: the returned error, the sensor
(the window `Values` is shared through a pointer) and the store. -/
structure SensorOutcome where
  err : Option String
  sensor : Sensor
  db : persistence.Store

/-- The Go function `updateSensor`; `none` when `sensor.Config` is `nil`. -/
def updateSensor (fs : util.Sysfs) (db : persistence.Store) (sensor : Sensor) :
    Option SensorOutcome :=
  let (value, err) := util.ReadIntFromFile fs sensor.Input
  if err ≠ none then
    some ⟨err, sensor, db⟩
  else
    match sensor.Config with
    | none => none
    | some sensorConfig =>
      let values := sensor.Values
      let values := values.Append (float64 (value : ℚ))
      let values :=
        if value > sensorConfig.Max then values.Append (float64 (value : ℚ)) else values
      let (err, db) := persistence.StoreInt BucketSensors sensor.Input value db
      some ⟨err, { sensor with Values := values }, db⟩

/-- The Go function `setPwmEnabled` of the backend.  The declaration
`value, err := util.ReadIntFromFile(...)` inside the `if` introduces new
variables that hide the parameter `value` and the outer `err`. -/
def setPwmEnabled (fan : Fan) (value : Int) (fs : util.Sysfs) : Option String × util.Sysfs :=
  let pwmEnabledFilePath := fan.PwmOutput ++ "_enable"
  let (err, fs) := util.WriteIntToFile value pwmEnabledFilePath fs
  if err = none then
    let (value, innerErr) := util.ReadIntFromFile fs pwmEnabledFilePath
    if innerErr ≠ none ∨ value ≠ value then
      (some ("PWM mode stuck to " ++ toString value), fs)
    else
      (err, fs)
  else
    (err, fs)

/-- The type `data.Controller`. -/
structure Controller where
  Name : String
  DType : String
  Modalias : String
  Platform : String
  Path : String
  Fans : List Fan
  Sensors : List Sensor

/-- How a run of `measureTempSensors` ends: the function returns, `log.Fatal`
terminates the process with the given error, or a `nil` pointer is
dereferenced. -/
inductive TickEnd where
  | returned
  | fatal (err : String)
  | panicked

/-- The inner loop of the Go function `measureTempSensors`, over the sensors of
one controller: how it ends, and the sensors and the store at that point. -/
def measureSensors (fs : util.Sysfs) (db : persistence.Store) :
    List Sensor → TickEnd × List Sensor × persistence.Store
  | [] => (TickEnd.returned, [], db)
  | sensor :: rest =>
    if sensor.Config.isSome then
      match updateSensor fs db sensor with
      | none => (TickEnd.panicked, sensor :: rest, db)
      | some out =>
        match out.err with
        | some err => (TickEnd.fatal err, out.sensor :: rest, out.db)
        | none =>
          let (ending, rest, db) := measureSensors fs out.db rest
          (ending, out.sensor :: rest, db)
    else
      let (ending, rest, db) := measureSensors fs db rest
      (ending, sensor :: rest, db)

/-- The Go function `measureTempSensors` (the outer loop over the global list
`Controllers`): how it ends, and the controllers and the store at that point. -/
def measureTempSensors (fs : util.Sysfs) (db : persistence.Store) :
    List Controller → TickEnd × List Controller × persistence.Store
  | [] => (TickEnd.returned, [], db)
  | controller :: rest =>
    match measureSensors fs db controller.Sensors with
    | (TickEnd.returned, sensors, db) =>
      let (ending, rest, db) := measureTempSensors fs db rest
      (ending, { controller with Sensors := sensors } :: rest, db)
    | (ending, sensors, db) => (ending, { controller with Sensors := sensors } :: rest, db)

/-- Rounding to the nearest integer, as the specification words the mapping of
a target into the range of a fan (a half is rounded up). -/
def roundNearest (q : ℚ) : Int := ⌊q + 1 / 2⌋

end backend

namespace fans

/-- The fields of `configuration.FanConfig` that the fan backends read. -/
structure FanConfig where
  ID : String
  Curve : String
  NeverStop : Bool

/-- The Go type `HwMonFan`. -/
structure HwMonFan where
  Label : String
  Index : Int
  RpmInput : String
  RpmMovingAvg : ℚ
  PwmOutput : String
  Config : FanConfig
  StartPwm : Option Int
  MinPwm : Int
  MaxPwm : Int
  FanCurveData : Option (List (Int × ℚ))

/-- The Go type `FileFan`. -/
structure FileFan where
  ID : String
  Label : String
  FilePath : String
  Config : FanConfig
  MovingAvg : ℚ

/-- The Go method `HwMonFan.Supports`.  The constant `FeatureRpmSensor` is
declared outside the sources and is a parameter here. -/
def HwMonFan.Supports (FeatureRpmSensor : Int) (fan : HwMonFan) (feature : Int) : Bool :=
  if feature = FeatureRpmSensor then
    decide (fan.RpmInput.utf8ByteSize > 0)
  else
    false

/-- The Go method `FileFan.GetRpm`. -/
def FileFan.GetRpm (_fan : FileFan) : Int := 0

/-- The Go method `FileFan.Supports`.  The constant `FeatureRpmSensor` is
declared outside the sources and is a parameter here. -/
def FileFan.Supports (FeatureRpmSensor : Int) (_fan : FileFan) (feature : Int) : Bool :=
  if feature = FeatureRpmSensor then
    false
  else
    false

end fans

/-! ## Concrete inputs and the loop invariant -/

namespace backend

/-- A store in which every sample reads 40 and every write is accepted. -/
def exStore : persistence.Store :=
  { read := fun _ _ => (40, none), accept := fun _ _ _ => none }

/-- A file system in which every file reads 0 and keeps what is written to it. -/
def exSysfs : util.Sysfs :=
  { read := fun _ => (0, none), accept := fun _ v => .ok v, writes := [] }

/-- A configured fan with learned bounds 30 and 200 and no curve data. -/
def exFan : Fan :=
  { Name := "pwm1", Index := 1, PwmOutput := "/sys/class/hwmon/hwmon0/pwm1",
    RpmInput := "/sys/class/hwmon/hwmon0/fan1_input", StartPwm := 30, MaxPwm := 200,
    Config := some { Id := "cpu_fan", Platform := "nct6798", Fan := 1, Sensor := "cpu", NeverStop := false },
    FanCurveData := none }

/-- The fan `exFan`, configured never to stop. -/
def exNeverStopFan : Fan :=
  { exFan with
    Config := some { Id := "cpu_fan", Platform := "nct6798", Fan := 1, Sensor := "cpu", NeverStop := true } }

/-- A sensor with thresholds of 20 and 80 degrees whose window has the mean 50000
milli-degrees. -/
def exSensor : Sensor :=
  { Name := "temp1_input", Index := 1, Input := "/sys/class/hwmon/hwmon0/temp1_input",
    Config := some { Id := "cpu", Platform := "nct6798", Index := 1, Min := 20, Max := 80 },
    Values := { capacity := 3, samples := [50000, 50000, 50000] } }

/-- The sensor map that knows the sensor `exSensor` as `cpu`. -/
def exSensorMap : String → Option Sensor :=
  fun id => if id = "cpu" then some exSensor else none

/-- The file system `exSysfs` after 119 has been written to the output of `exFan`. -/
def exSysfsAfter : util.Sysfs :=
  { read := fun p => if p = exFan.PwmOutput then (119, none) else exSysfs.read p,
    accept := exSysfs.accept,
    writes := [(exFan.PwmOutput, 119)] }

/-- The loop invariant of `updatePwmBoundaries` after the keys `l` have been
visited, in terms of the truncated bucket means. -/
structure ScanInv (m : List (Int × rolling.PointPolicy)) (l : List Int) (st : Boundaries) :
    Prop where
  start_le : st.startPwm ≤ 255
  start_lower : ∀ k w, k ∈ l → m.lookup k = some w → 0 < avgRpmOf w → st.startPwm ≤ k
  start_mem : st.startPwm = 255 ∨
    (st.startPwm ∈ l ∧ ∃ w, m.lookup st.startPwm = some w ∧ 0 < avgRpmOf w)
  rpm_nonneg : 0 ≤ st.maxRpm
  rpm_upper : ∀ k w, k ∈ l → m.lookup k = some w → avgRpmOf w ≤ st.maxRpm
  max_mem : (st.maxRpm = 0 ∧ st.maxPwm = 255) ∨
    (0 < st.maxRpm ∧ st.maxPwm ∈ l ∧ (∃ w, m.lookup st.maxPwm = some w ∧ avgRpmOf w = st.maxRpm) ∧
      ∀ k w, k ∈ l → m.lookup k = some w → avgRpmOf w = st.maxRpm → st.maxPwm ≤ k)

/-- Curve data of a fan that never turned: one visited duty cycle, all samples 0. -/
def stalledData : List (Int × rolling.PointPolicy) := [(0, ⟨2, [0, 0]⟩)]

/-- Curve data with one bucket whose mean RPM, 1/2, is nonzero but below 1. -/
def slowData : List (Int × rolling.PointPolicy) := [(10, ⟨2, [0, 1]⟩)]

/-- Curve data with two buckets of means 3000 and 3000.5. -/
def closeData : List (Int × rolling.PointPolicy) :=
  [(10, ⟨2, [3000, 3000]⟩), (20, ⟨2, [3000, 3001]⟩)]

/-- Curve data of the step fan after the sweep over the duty cycles 0..254: RPM 0
below duty cycle 30 and RPM 3000 from 30 up. -/
def stepData : List (Int × rolling.PointPolicy) :=
  (List.range 255).map fun (p : Nat) => ((p : Int), ⟨2, if p < 30 then [0, 0] else [3000, 3000]⟩)

/-- The fan `exFan` with the curve data `stalledData`. -/
def stalledFan : Fan := { exFan with FanCurveData := some stalledData }

/-- The fan `exFan` with the curve data `slowData`. -/
def slowFan : Fan := { exFan with FanCurveData := some slowData }

/-- The fan `exFan` with the curve data `closeData`. -/
def closeFan : Fan := { exFan with FanCurveData := some closeData }

/-- The fan `exFan` with the curve data `stepData`. -/
def stepFan : Fan := { exFan with FanCurveData := some stepData }

/-- A sensor with a maximum threshold of 80 degrees (80000 milli-degrees) whose
window holds four readings around 40000 milli-degrees. -/
def coolSensor : Sensor :=
  { Name := "temp1_input", Index := 1, Input := "/sys/class/hwmon/hwmon0/temp1_input",
    Config := some { Id := "cpu", Platform := "nct6798", Index := 1, Min := 20, Max := 80 },
    Values := { capacity := 4, samples := [40000, 41000, 42000, 43000] } }

/-- A file system in which every file reads 50000. -/
def coolSysfs : util.Sysfs :=
  { read := fun _ => (50000, none), accept := fun _ v => .ok v, writes := [] }

/-- A file system whose device accepts every write but keeps the value 2 in the
file, whatever is written. -/
def stuckSysfs : util.Sysfs :=
  { read := fun _ => (2, none), accept := fun _ _ => .ok 2, writes := [] }

/-- A configured sensor whose input cannot be read in `flakySysfs`. -/
def brokenSensor : Sensor :=
  { Name := "temp2_input", Index := 2, Input := "/sys/class/hwmon/hwmon0/temp2_input",
    Config := some { Id := "board", Platform := "nct6798", Index := 2, Min := 30, Max := 70 },
    Values := { capacity := 4, samples := [35000, 35000, 35000, 35000] } }

/-- A file system in which reading `temp2_input` fails and every other file
reads 50000. -/
def flakySysfs : util.Sysfs :=
  { read := fun p =>
      if p = "/sys/class/hwmon/hwmon0/temp2_input" then (0, some "input/output error")
      else (50000, none),
    accept := fun _ v => .ok v, writes := [] }

/-- A controller with the two configured sensors `brokenSensor` and `coolSensor`,
in this order. -/
def exController : Controller :=
  { Name := "nct6798", DType := "", Modalias := "platform:nct6775", Platform := "nct6798",
    Path := "/sys/class/hwmon/hwmon0", Fans := [exFan], Sensors := [brokenSensor, coolSensor] }

/-- A sensor with both thresholds at -5 degrees whose window has the mean
-5000.5 milli-degrees. -/
def coldSensor : Sensor :=
  { Name := "temp1_input", Index := 1, Input := "/sys/class/hwmon/hwmon0/temp1_input",
    Config := some { Id := "cpu", Platform := "nct6798", Index := 1, Min := -5, Max := -5 },
    Values := { capacity := 2, samples := [-5001, -5000] } }

/-- A sensor with thresholds of 20 and 80 degrees whose window has the mean
20235.5 milli-degrees. -/
def fracSensor : Sensor :=
  { Name := "temp1_input", Index := 1, Input := "/sys/class/hwmon/hwmon0/temp1_input",
    Config := some { Id := "cpu", Platform := "nct6798", Index := 1, Min := 20, Max := 80 },
    Values := { capacity := 2, samples := [20235, 20236] } }

/-- A sensor with thresholds of 0 and 2000000000000 degrees whose window has the
mean 596078431372549 milli-degrees. -/
def wideSensor : Sensor :=
  { Name := "temp1_input", Index := 1, Input := "/sys/class/hwmon/hwmon0/temp1_input",
    Config := some
      { Id := "cpu", Platform := "nct6798", Index := 1, Min := 0, Max := 2000000000000 },
    Values := { capacity := 1, samples := [596078431372549] } }

/-- A sensor whose thresholds, 4611686018427413000 and 4611686018427414000
milli-degrees, have the same nearest `float64`, 4611686018427413504, and whose
window holds that value, which lies strictly between them. -/
def hugeSensor : Sensor :=
  { Name := "temp1_input", Index := 1, Input := "/sys/class/hwmon/hwmon0/temp1_input",
    Config := some
      { Id := "cpu", Platform := "nct6798", Index := 1, Min := 4611686018427413,
        Max := 4611686018427414 },
    Values := { capacity := 1, samples := [4611686018427413504] } }

/-- A never-stop fan whose learned bounds are 0 and `2 ^ 54 + 1`. -/
def hugeFan : Fan :=
  { exNeverStopFan with StartPwm := 0, MaxPwm := 18014398509481985 }

end backend

namespace fans

/-- A file-backed fan. -/
def exFileFan : FileFan :=
  { ID := "virtual", Label := "virtual fan", FilePath := "~/fan", MovingAvg := 0,
    Config := { ID := "virtual", Curve := "cpu_curve", NeverStop := false } }

/-- A fan of a hardware monitor with an RPM input. -/
def exHwMonFan : HwMonFan :=
  { Label := "cpu fan", Index := 1, RpmInput := "/sys/class/hwmon/hwmon0/fan1_input",
    RpmMovingAvg := 0, PwmOutput := "/sys/class/hwmon/hwmon0/pwm1",
    Config := { ID := "cpu_fan", Curve := "cpu_curve", NeverStop := false },
    StartPwm := none, MinPwm := 0, MaxPwm := 255, FanCurveData := none }

end fans

/-! ## Truncation -/

theorem goInt_of_nonneg {q : ℚ} (h : 0 ≤ q) : goInt q = ⌊q⌋ := by
  simp [goInt, h]

theorem goInt_nonneg {q : ℚ} (h : 0 ≤ q) : 0 ≤ goInt q := by
  rw [goInt_of_nonneg h]; exact Int.floor_nonneg.mpr h

theorem goInt_le_of_le {q : ℚ} {n : Int} (h0 : 0 ≤ q) (h : q ≤ (n : ℚ)) : goInt q ≤ n := by
  rw [goInt_of_nonneg h0]
  exact Int.floor_le_iff.mpr (lt_of_le_of_lt h (by exact_mod_cast Int.lt_succ_self n))

theorem goInt_zero : goInt 0 = 0 := by simp [goInt]

theorem goInt_intCast (n : Int) : goInt (n : ℚ) = n := by
  unfold goInt; split <;> simp

/-- For a non-negative numerator and a positive denominator, truncating the exact
quotient is integer division. -/
theorem goInt_div_of_nonneg {a b : Int} (ha : 0 ≤ a) (hb : 0 < b) :
    goInt ((a : ℚ) / (b : ℚ)) = a / b := by
  have hq : (0 : ℚ) ≤ (a : ℚ) / (b : ℚ) :=
    div_nonneg (by exact_mod_cast ha) (by exact_mod_cast hb.le)
  rw [goInt_of_nonneg hq]
  obtain ⟨n, rfl⟩ := Int.eq_ofNat_of_zero_le hb.le
  exact Rat.floor_intCast_div_natCast a n

/-! ## Rounding to binary64 -/

theorem roundHalfEven_cases (x : ℚ) :
    (roundHalfEven x = ⌊x⌋ ∧ x - ⌊x⌋ ≤ 1 / 2) ∨
    (roundHalfEven x = ⌊x⌋ + 1 ∧ 1 / 2 ≤ x - ⌊x⌋) := by
  unfold roundHalfEven
  split_ifs with h1 h2 h3
  · left; exact ⟨rfl, h1.le⟩
  · right; exact ⟨rfl, h2.le⟩
  · left; exact ⟨rfl, by linarith⟩
  · right; exact ⟨rfl, by linarith⟩

/-- `roundHalfEven x` is an integer nearest to `x`. -/
theorem roundHalfEven_nearest (x : ℚ) (n : ℤ) :
    |(roundHalfEven x : ℚ) - x| ≤ |(n : ℚ) - x| := by
  have hfl := Int.floor_le x
  have hlt := Int.lt_floor_add_one x
  have hn : n ≤ ⌊x⌋ ∨ ⌊x⌋ + 1 ≤ n := by omega
  have hnq : (n : ℚ) ≤ (⌊x⌋ : ℚ) ∨ (⌊x⌋ : ℚ) + 1 ≤ (n : ℚ) := by
    rcases hn with h | h
    · left; exact_mod_cast h
    · right; exact_mod_cast h
  rcases roundHalfEven_cases x with ⟨hr, hh⟩ | ⟨hr, hh⟩
  · rw [hr]
    rw [abs_le]
    rcases hnq with h | h
    · rw [abs_of_nonpos (by linarith)]
      constructor <;> linarith
    · rw [abs_of_nonneg (by linarith)]
      constructor <;> linarith
  · rw [hr]
    push_cast
    rw [abs_le]
    rcases hnq with h | h
    · rw [abs_of_nonpos (by linarith)]
      constructor <;> linarith
    · rw [abs_of_nonneg (by linarith)]
      constructor <;> linarith

theorem roundHalfEven_err (x : ℚ) : |(roundHalfEven x : ℚ) - x| ≤ 1 / 2 := by
  have hfl := Int.floor_le x
  have hlt := Int.lt_floor_add_one x
  rcases roundHalfEven_cases x with ⟨hr, hh⟩ | ⟨hr, hh⟩
  · rw [hr, abs_le]; constructor <;> linarith
  · rw [hr]; push_cast; rw [abs_le]; constructor <;> linarith

/-- An integer within less than one half of `x` is the rounded value. -/
theorem roundHalfEven_eq_of (x : ℚ) (m : ℤ) (h : |x - (m : ℚ)| < 1 / 2) :
    roundHalfEven x = m := by
  have herr := roundHalfEven_err x
  have h1 : |((roundHalfEven x - m : ℤ) : ℚ)| < 1 := by
    push_cast
    have : (roundHalfEven x : ℚ) - m = ((roundHalfEven x : ℚ) - x) + (x - m) := by ring
    rw [this]
    calc |((roundHalfEven x : ℚ) - x) + (x - m)| ≤ |(roundHalfEven x : ℚ) - x| + |x - m| :=
          abs_add _ _
      _ < 1 := by linarith
  have h2 : |roundHalfEven x - m| < 1 := by exact_mod_cast h1
  have := abs_lt.mp h2
  omega

theorem float64_zero : float64 0 = 0 := by simp [float64]

theorem two_zpow_pos (e : ℤ) : (0 : ℚ) < 2 ^ e := zpow_pos (by norm_num) e

theorem log_bounds (q : ℚ) (hq : q ≠ 0) :
    (2 : ℚ) ^ Int.log 2 |q| ≤ |q| ∧ |q| < (2 : ℚ) ^ (Int.log 2 |q| + 1) := by
  have hpos : 0 < |q| := abs_pos.mpr hq
  exact ⟨by simpa using Int.zpow_log_le_self (b := 2) (by norm_num) hpos,
    by simpa using Int.lt_zpow_succ_log_self (b := 2) (by norm_num) |q|⟩

/-- The rounded value is a nearest point of the grid of multiples of the unit in
the last place. -/
theorem float64_nearest_grid (q : ℚ) (hq : q ≠ 0) (n : ℤ) :
    |float64 q - q| ≤ |(n : ℚ) * 2 ^ (Int.log 2 |q| - 52) - q| := by
  have hu := two_zpow_pos (Int.log 2 |q| - 52)
  have h := roundHalfEven_nearest (q / 2 ^ (Int.log 2 |q| - 52)) n
  have e1 : float64 q - q =
      ((roundHalfEven (q / 2 ^ (Int.log 2 |q| - 52)) : ℚ) - q / 2 ^ (Int.log 2 |q| - 52)) *
        2 ^ (Int.log 2 |q| - 52) := by
    simp only [float64, hq, if_false]
    field_simp
  have e2 : (n : ℚ) * 2 ^ (Int.log 2 |q| - 52) - q =
      ((n : ℚ) - q / 2 ^ (Int.log 2 |q| - 52)) * 2 ^ (Int.log 2 |q| - 52) := by
    field_simp
  rw [e1, e2, abs_mul, abs_mul, abs_of_pos hu]
  exact mul_le_mul_of_nonneg_right h hu.le

/-- A binary64 value is, for any exponent `e`, either of magnitude at most `2 ^ e`
or a multiple of `2 ^ (e - 52)`. -/
theorem isFloat64_cases (f : ℚ) (hf : IsFloat64 f) (e : ℤ) :
    |f| ≤ 2 ^ e ∨ ∃ n : ℤ, f = (n : ℚ) * 2 ^ (e - 52) := by
  obtain ⟨m, k, hm, rfl⟩ := hf
  by_cases hk : e - 52 ≤ k
  · right
    obtain ⟨j, hj⟩ := Int.eq_ofNat_of_zero_le (by omega : 0 ≤ k - (e - 52))
    refine ⟨m * 2 ^ j, ?_⟩
    have hk2 : k = (j : ℤ) + (e - 52) := by omega
    rw [hk2, zpow_add₀ (by norm_num : (2 : ℚ) ≠ 0)]
    push_cast
    rw [zpow_natCast]
    ring
  · left
    have hk2 : k ≤ e - 53 := by omega
    have hmq : |(m : ℚ)| ≤ 2 ^ (53 : ℤ) := by
      have h1 : ((|m| : ℤ) : ℚ) ≤ ((2 ^ 53 : ℤ) : ℚ) := by exact_mod_cast hm
      have h2 : (2 : ℚ) ^ (53 : ℤ) = ((2 ^ 53 : ℤ) : ℚ) := by norm_num
      rw [h2, ← Int.cast_abs]
      exact h1
    rw [abs_mul, abs_of_pos (two_zpow_pos k)]
    calc |(m : ℚ)| * 2 ^ k ≤ 2 ^ (53 : ℤ) * 2 ^ (e - 53) := by
          apply mul_le_mul hmq _ (two_zpow_pos k).le (two_zpow_pos 53).le
          exact zpow_le_zpow_right₀ (by norm_num) hk2
      _ = 2 ^ e := by
          rw [← zpow_add₀ (by norm_num : (2 : ℚ) ≠ 0)]
          congr 1
          ring

/-- The value `float64 q` is nearest to `q` among the binary64 values. -/
theorem float64_nearest (q f : ℚ) (hf : IsFloat64 f) : |float64 q - q| ≤ |f - q| := by
  by_cases hq : q = 0
  · subst hq; simp [float64_zero]
  obtain ⟨hlo, _⟩ := log_bounds q hq
  have hgridN := float64_nearest_grid q hq
  have hcases := isFloat64_cases f hf (Int.log 2 |q|)
  generalize Int.log 2 |q| = E at hlo hgridN hcases
  rcases hcases with hsmall | ⟨n, hn⟩
  · have hgrid : (2 : ℚ) ^ E = ((2 ^ 52 : ℤ) : ℚ) * 2 ^ (E - 52) := by
      have : E = 52 + (E - 52) := by ring
      conv_lhs => rw [this, zpow_add₀ (by norm_num : (2 : ℚ) ≠ 0)]
      norm_num
    have hfle := abs_le.mp hsmall
    rcases lt_or_gt_of_ne hq with hneg | hpos
    · have h1 := hgridN (-(2 ^ 52))
      have e : ((-(2 ^ 52) : ℤ) : ℚ) * 2 ^ (E - 52) = -(2 : ℚ) ^ E := by
        rw [hgrid]; push_cast; ring
      rw [e] at h1
      have hlo2 : (2 : ℚ) ^ E ≤ -q := le_trans hlo (le_of_eq (abs_of_neg hneg))
      have a1 : |-(2 : ℚ) ^ E - q| = -(2 : ℚ) ^ E - q := abs_of_nonneg (by linarith)
      have a2 : |f - q| = f - q := abs_of_nonneg (by linarith)
      rw [a1] at h1
      rw [a2]
      linarith
    · have h1 := hgridN (2 ^ 52)
      rw [← hgrid] at h1
      have hlo2 : (2 : ℚ) ^ E ≤ q := le_trans hlo (le_of_eq (abs_of_pos hpos))
      have a1 : |(2 : ℚ) ^ E - q| = -((2 : ℚ) ^ E - q) := abs_of_nonpos (by linarith)
      have a2 : |f - q| = -(f - q) := abs_of_nonpos (by linarith)
      rw [a1] at h1
      rw [a2]
      linarith
  · rw [hn]
    exact hgridN n

theorem isFloat64_zero : IsFloat64 0 := ⟨0, 0, by norm_num, by simp⟩

/-- Every integer of magnitude at most `2 ^ 53` is a binary64 value. -/
theorem isFloat64_intCast (n : ℤ) (h : |n| ≤ 2 ^ 53) : IsFloat64 (n : ℚ) :=
  ⟨n, 0, h, by simp⟩

/-- Rounding leaves a binary64 value unchanged. -/
theorem float64_of_isFloat64 (f : ℚ) (hf : IsFloat64 f) : float64 f = f := by
  have h := float64_nearest f f hf
  simp only [sub_self, abs_zero] at h
  have := abs_nonneg (float64 f - f)
  have h0 : |float64 f - f| = 0 := le_antisymm h this
  linarith [abs_eq_zero.mp h0]

/-- Rounding does not cross a binary64 value from below. -/
theorem float64_le_of_le (q f : ℚ) (hf : IsFloat64 f) (h : q ≤ f) : float64 q ≤ f := by
  by_contra hc
  push_neg at hc
  have hn := float64_nearest q f hf
  rw [abs_of_pos (by linarith), abs_of_nonneg (by linarith)] at hn
  linarith

/-- Rounding does not cross a binary64 value from above. -/
theorem le_float64_of_le (q f : ℚ) (hf : IsFloat64 f) (h : f ≤ q) : f ≤ float64 q := by
  by_contra hc
  push_neg at hc
  have hn := float64_nearest q f hf
  rw [abs_of_neg (by linarith), abs_of_nonpos (by linarith)] at hn
  linarith

/-- The rounded value is a binary64 value. -/
theorem float64_isFloat64 (q : ℚ) : IsFloat64 (float64 q) := by
  by_cases hq : q = 0
  · subst hq; rw [float64_zero]; exact isFloat64_zero
  obtain ⟨_, hhi⟩ := log_bounds q hq
  have hu := two_zpow_pos (Int.log 2 |q| - 52)
  have hx : |q / 2 ^ (Int.log 2 |q| - 52)| < 2 ^ 53 := by
    rw [abs_div, abs_of_pos hu, div_lt_iff₀ hu]
    have : (2 : ℚ) ^ 53 * 2 ^ (Int.log 2 |q| - 52) = 2 ^ (Int.log 2 |q| + 1) := by
      have h53 : (2 : ℚ) ^ 53 = 2 ^ (53 : ℤ) := by norm_num
      rw [h53, ← zpow_add₀ (by norm_num : (2 : ℚ) ≠ 0)]
      congr 1
      ring
    rw [this]
    exact hhi
  refine ⟨roundHalfEven (q / 2 ^ (Int.log 2 |q| - 52)), Int.log 2 |q| - 52, ?_, ?_⟩
  · generalize q / 2 ^ (Int.log 2 |q| - 52) = x at hx
    obtain ⟨hx1, hx2⟩ := abs_lt.mp hx
    have hfl := Int.floor_le x
    have h1 : ⌊x⌋ < 2 ^ 53 := by
      have : ((⌊x⌋ : ℤ) : ℚ) < ((2 ^ 53 : ℤ) : ℚ) := by push_cast; linarith
      exact_mod_cast this
    have h2 : -(2 ^ 53) ≤ ⌊x⌋ := by
      rw [Int.le_floor]; push_cast; linarith
    rw [abs_le]
    rcases roundHalfEven_cases x with ⟨hr, _⟩ | ⟨hr, _⟩ <;> rw [hr] <;> constructor <;> omega
  · simp only [float64, hq, if_false]

/-- Rounding to binary64 is monotone. -/
theorem float64_mono {x y : ℚ} (h : x ≤ y) : float64 x ≤ float64 y := by
  by_contra hc
  push_neg at hc
  by_cases h1 : x ≤ float64 y
  · exact absurd (float64_le_of_le x _ (float64_isFloat64 y) h1) (not_le.mpr hc)
  · push_neg at h1
    by_cases h2 : float64 x ≤ y
    · exact absurd (le_float64_of_le y _ (float64_isFloat64 x) h2) (not_le.mpr hc)
    · push_neg at h2
      have n1 := float64_nearest x (float64 y) (float64_isFloat64 y)
      have n2 := float64_nearest y (float64 x) (float64_isFloat64 x)
      have a1 : |float64 x - x| = float64 x - x := abs_of_nonneg (by linarith)
      have a2 : |float64 y - x| = -(float64 y - x) := abs_of_nonpos (by linarith)
      have a3 : |float64 y - y| = -(float64 y - y) := abs_of_nonpos (by linarith)
      have a4 : |float64 x - y| = float64 x - y := abs_of_nonneg (by linarith)
      rw [a1, a2] at n1
      rw [a3, a4] at n2
      have : x = y := by linarith
      subst this
      exact lt_irrefl _ hc

theorem float64_nonneg {q : ℚ} (h : 0 ≤ q) : 0 ≤ float64 q :=
  le_float64_of_le q 0 isFloat64_zero h

/-- The relative error of rounding is at most `2 ^ (-53)`. -/
theorem float64_rel_err (q : ℚ) : |float64 q - q| ≤ |q| / 2 ^ 53 := by
  by_cases hq : q = 0
  · subst hq; simp [float64_zero]
  obtain ⟨hlo, _⟩ := log_bounds q hq
  have hu := two_zpow_pos (Int.log 2 |q| - 52)
  have herr := roundHalfEven_err (q / 2 ^ (Int.log 2 |q| - 52))
  have e1 : float64 q - q =
      ((roundHalfEven (q / 2 ^ (Int.log 2 |q| - 52)) : ℚ) - q / 2 ^ (Int.log 2 |q| - 52)) *
        2 ^ (Int.log 2 |q| - 52) := by
    simp only [float64, hq, if_false]
    field_simp
  have e2 : (2 : ℚ) ^ Int.log 2 |q| = 2 ^ 52 * 2 ^ (Int.log 2 |q| - 52) := by
    have : Int.log 2 |q| = 52 + (Int.log 2 |q| - 52) := by ring
    conv_lhs => rw [this, zpow_add₀ (by norm_num : (2 : ℚ) ≠ 0)]
    norm_num
  rw [e1, abs_mul, abs_of_pos hu]
  rw [e2] at hlo
  have h3 : |(roundHalfEven (q / 2 ^ (Int.log 2 |q| - 52)) : ℚ) - q / 2 ^ (Int.log 2 |q| - 52)| *
      2 ^ (Int.log 2 |q| - 52) ≤ 1 / 2 * 2 ^ (Int.log 2 |q| - 52) :=
    mul_le_mul_of_nonneg_right herr hu.le
  rw [le_div_iff₀ (by norm_num : (0 : ℚ) < 2 ^ 53)]
  nlinarith

/-- Evaluation of `float64`: with `2 ^ e ≤ |q| < 2 ^ (e + 1)`, an integer `m` within
less than one half of `q / 2 ^ (e - 52)` gives the rounded value `m * 2 ^ (e - 52)`. -/
theorem float64_eq_of (q : ℚ) (e m : ℤ) (h1 : (2 : ℚ) ^ e ≤ |q|) (h2 : |q| < (2 : ℚ) ^ (e + 1))
    (h3 : |q / 2 ^ (e - 52) - (m : ℚ)| < 1 / 2) : float64 q = (m : ℚ) * 2 ^ (e - 52) := by
  have hpos : 0 < |q| := lt_of_lt_of_le (two_zpow_pos e) h1
  have hq : q ≠ 0 := abs_pos.mp hpos
  have hlog : Int.log 2 |q| = e := by
    have a : e ≤ Int.log 2 |q| := (Int.zpow_le_iff_le_log (b := 2) (by norm_num) hpos).mp
      (by simpa using h1)
    have b : Int.log 2 |q| < e + 1 := (Int.lt_zpow_iff_log_lt (b := 2) (by norm_num) hpos).mp
      (by simpa using h2)
    omega
  simp only [float64, hq, if_false, hlog]
  rw [roundHalfEven_eq_of _ m h3]

/-- An integer of magnitude at most `2 ^ 53` converts to `float64` exactly. -/
theorem float64_intCast (n : ℤ) (h : |n| ≤ 2 ^ 53) : float64 (n : ℚ) = n :=
  float64_of_isFloat64 _ (isFloat64_intCast n h)

/-- A quantity within `510 / 2 ^ 53` of the quotient `N / D`, where `D ≤ 2 ^ 41`, truncates to
the integer quotient as soon as `D` does not divide `N`; if it does, the result is the
quotient or one less. -/
theorem floor_of_close (N D : ℤ) (p : ℚ) (hD : 0 < D) (hD2 : D ≤ 2 ^ 41)
    (hp : |p - (N : ℚ) / (D : ℚ)| ≤ 510 / 2 ^ 53) :
    (N % D ≠ 0 → ⌊p⌋ = N / D) ∧
    (N % D = 0 → ⌊p⌋ = N / D ∨ ⌊p⌋ = N / D - 1) ∧
    ((N : ℚ) / (D : ℚ) ≤ p → ⌊p⌋ = N / D) := by
  have hDq : (0 : ℚ) < (D : ℚ) := by exact_mod_cast hD
  have hDq2 : (D : ℚ) ≤ 2 ^ 41 := by exact_mod_cast hD2
  have hx : (N : ℚ) / (D : ℚ) = ((N / D : ℤ) : ℚ) + ((N % D : ℤ) : ℚ) / (D : ℚ) := by
    have h := Int.ediv_add_emod N D
    have hq : (N : ℚ) = (D : ℚ) * ((N / D : ℤ) : ℚ) + ((N % D : ℤ) : ℚ) := by exact_mod_cast h.symm
    field_simp
    linarith
  have hrem0 := Int.emod_nonneg N (ne_of_gt hD)
  have hrem1 := Int.emod_lt_of_pos N hD
  obtain ⟨hlo, hhi⟩ := abs_le.mp hp
  have hinv : (1 : ℚ) / 2 ^ 41 ≤ 1 / (D : ℚ) := one_div_le_one_div_of_le hDq hDq2
  have hrq0 : (0 : ℚ) ≤ ((N % D : ℤ) : ℚ) := by exact_mod_cast hrem0
  have hupper : ∀ r : ℚ, r ≤ (D : ℚ) - 1 → r / (D : ℚ) ≤ 1 - 1 / (D : ℚ) := by
    intro r hr
    rw [div_le_iff₀ hDq]
    field_simp
    linarith
  have hhigh : ((N % D : ℤ) : ℚ) / (D : ℚ) ≤ 1 - 1 / (D : ℚ) := by
    apply hupper
    have : N % D ≤ D - 1 := by omega
    exact_mod_cast this
  have heps : (510 : ℚ) / 2 ^ 53 < 1 / 2 ^ 41 := by norm_num
  have heps1 : (510 : ℚ) / 2 ^ 53 < 1 := by norm_num
  refine ⟨?_, ?_, ?_⟩
  · intro hne
    have hrq1 : (1 : ℚ) ≤ ((N % D : ℤ) : ℚ) := by
      have : 1 ≤ N % D := by omega
      exact_mod_cast this
    have hlow : 1 / (D : ℚ) ≤ ((N % D : ℤ) : ℚ) / (D : ℚ) :=
      div_le_div_of_nonneg_right hrq1 hDq.le
    rw [Int.floor_eq_iff]
    constructor <;> linarith
  · intro h0
    rw [h0] at hx
    simp only [Int.cast_zero, zero_div, add_zero] at hx
    by_cases hge : ((N / D : ℤ) : ℚ) ≤ p
    · left
      rw [Int.floor_eq_iff]
      constructor
      · exact hge
      · linarith
    · right
      push_neg at hge
      rw [Int.floor_eq_iff]
      push_cast
      constructor <;> linarith
  · intro hge
    rw [Int.floor_eq_iff]
    have : (0 : ℚ) ≤ ((N % D : ℤ) : ℚ) / (D : ℚ) := div_nonneg hrq0 hDq.le
    constructor <;> linarith

/-- Two roundings in a row: for `0 ≤ a ≤ 1` and `0 ≤ c ≤ 255`, the rounded product of the
rounded `a` and `c` is non-negative and within `510 / 2 ^ 53` of `a * c`. -/
theorem two_step_err (a c : ℚ) (ha0 : 0 ≤ a) (ha1 : a ≤ 1) (hc0 : 0 ≤ c) (hc : c ≤ 255) :
    0 ≤ float64 (float64 a * c) ∧ |float64 (float64 a * c) - a * c| ≤ 510 / 2 ^ 53 := by
  have hr0 : 0 ≤ float64 a := float64_nonneg ha0
  have hr1 : float64 a ≤ 1 := by
    have h := float64_le_of_le a ((1 : ℤ) : ℚ) (isFloat64_intCast 1 (by norm_num))
      (by simpa using ha1)
    simpa using h
  have e1 := float64_rel_err a
  have e2 := float64_rel_err (float64 a * c)
  rw [abs_of_nonneg ha0] at e1
  rw [abs_of_nonneg (mul_nonneg hr0 hc0)] at e2
  have b1 : |float64 a - a| ≤ 1 / 2 ^ 53 := by
    refine e1.trans ?_
    exact div_le_div_of_nonneg_right ha1 (by norm_num)
  have b2 : |float64 (float64 a * c) - float64 a * c| ≤ 255 / 2 ^ 53 := by
    refine e2.trans ?_
    apply div_le_div_of_nonneg_right _ (by norm_num)
    calc float64 a * c ≤ 1 * 255 := mul_le_mul hr1 hc hc0 (by norm_num)
      _ = 255 := by norm_num
  have b3 : |float64 a * c - a * c| ≤ 255 / 2 ^ 53 := by
    have : float64 a * c - a * c = (float64 a - a) * c := by ring
    rw [this, abs_mul, abs_of_nonneg hc0]
    calc |float64 a - a| * c ≤ 1 / 2 ^ 53 * 255 := mul_le_mul b1 hc hc0 (by norm_num)
      _ = 255 / 2 ^ 53 := by ring
  refine ⟨float64_nonneg (mul_nonneg hr0 hc0), ?_⟩
  have : float64 (float64 a * c) - a * c =
      (float64 (float64 a * c) - float64 a * c) + (float64 a * c - a * c) := by ring
  rw [this]
  calc |(float64 (float64 a * c) - float64 a * c) + (float64 a * c - a * c)|
      ≤ |float64 (float64 a * c) - float64 a * c| + |float64 a * c - a * c| := abs_add _ _
    _ ≤ 255 / 2 ^ 53 + 255 / 2 ^ 53 := add_le_add b2 b3
    _ = 510 / 2 ^ 53 := by ring

/-- Division by 255 followed by multiplication by 255, in binary64, does not fall below
`n`, given the integer conditions that describe the two roundings: `m / 2 ^ (k + 52)` is the
rounded quotient, and its product with 255 is at least `n` or rounds up to `n` in the
binade `2 ^ (j - 1)`. -/
theorem roundTrip_of (n k m : ℕ) (c1a : 255 ≤ n * 2 ^ k) (c1b : n * 2 ^ k < 510)
    (c2a : 2 * n * 2 ^ (k + 52) < 510 * m + 255) (c2b : 510 * m < 2 * n * 2 ^ (k + 52) + 255)
    (c3 : n * 2 ^ (k + 52) ≤ 255 * m ∨
      ∃ j : ℕ, j ≤ 53 ∧ 2 ^ (j + k + 51) ≤ 255 * m ∧ 255 * m < 2 ^ (j + k + 52) ∧
        255 * m ≤ n * 2 ^ (k + 52) ∧
        n * 2 ^ (k + 52) * 2 ^ (54 - j) < 2 ^ (k + 52) + 255 * m * 2 ^ (54 - j)) :
    (n : ℚ) ≤ float64 (float64 ((n : ℚ) / 255) * 255) := by
  have hK : (0 : ℚ) < 2 ^ k := pow_pos (by norm_num) _
  have q1a : (255 : ℚ) ≤ n * 2 ^ k := by exact_mod_cast c1a
  have q1b : (n : ℚ) * 2 ^ k < 510 := by exact_mod_cast c1b
  have q2a : 2 * (n : ℚ) * 2 ^ (k + 52) < 510 * m + 255 := by exact_mod_cast c2a
  have q2b : 510 * (m : ℚ) < 2 * n * 2 ^ (k + 52) + 255 := by exact_mod_cast c2b
  have hn : (0 : ℚ) < n := by
    rcases Nat.eq_zero_or_pos n with h | h
    · subst h; simp at q1a; linarith
    · exact_mod_cast h
  have hpow : (2 : ℚ) ^ (k + 52) = 2 ^ k * 2 ^ 52 := pow_add 2 k 52
  have hz1 : (2 : ℚ) ^ (-(k : ℤ)) = 1 / 2 ^ k := by
    rw [zpow_neg, zpow_natCast, one_div]
  have hz2 : (2 : ℚ) ^ (-(k : ℤ) + 1) = 2 / 2 ^ k := by
    rw [zpow_add₀ (by norm_num), hz1]; norm_num; ring
  have hz3 : (2 : ℚ) ^ (-(k : ℤ) - 52) = 1 / 2 ^ (k + 52) := by
    have : -(k : ℤ) - 52 = -((k + 52 : ℕ) : ℤ) := by push_cast; ring
    rw [this, zpow_neg, zpow_natCast, one_div]
  have habs : |(n : ℚ) / 255| = n / 255 := abs_of_pos (by positivity)
  have hA : float64 ((n : ℚ) / 255) = (m : ℚ) / 2 ^ (k + 52) := by
    have h := float64_eq_of ((n : ℚ) / 255) (-(k : ℤ)) (m : ℤ)
      (by rw [habs, hz1, div_le_div_iff₀ hK (by norm_num)]; linarith)
      (by rw [habs, hz2, div_lt_div_iff₀ (by norm_num) hK]; linarith)
      (by
        rw [hz3, abs_lt]
        have hP : (0 : ℚ) < 2 ^ (k + 52) := pow_pos (by norm_num) _
        have e : (n : ℚ) / 255 / (1 / 2 ^ (k + 52)) = n * 2 ^ (k + 52) / 255 := by
          field_simp
        rw [e]
        push_cast
        constructor
        · rw [lt_sub_iff_add_lt, lt_div_iff₀ (by norm_num)]; linarith
        · rw [sub_lt_iff_lt_add, div_lt_iff₀ (by norm_num)]; linarith)
    rw [h, hz3]
    push_cast
    ring
  rw [hA]
  have hP : (0 : ℚ) < 2 ^ (k + 52) := pow_pos (by norm_num) _
  rcases c3 with h3 | ⟨j, hj, c4a, c4b, c4d, c4c⟩
  · apply le_float64_of_le _ _ (by
      have := isFloat64_intCast (n : ℤ) (by
        have : n ≤ 509 := by
          have : 1 ≤ 2 ^ k := Nat.one_le_two_pow
          nlinarith
        rw [abs_of_nonneg (by positivity)]
        have : (n : ℤ) ≤ 509 := by exact_mod_cast this
        linarith)
      simpa using this)
    have q3 : (n : ℚ) * 2 ^ (k + 52) ≤ 255 * m := by exact_mod_cast h3
    rw [div_mul_eq_mul_div, le_div_iff₀ hP]
    linarith
  · have q4a : (2 : ℚ) ^ (j + k + 51) ≤ 255 * m := by exact_mod_cast c4a
    have q4b : 255 * (m : ℚ) < 2 ^ (j + k + 52) := by exact_mod_cast c4b
    have q4c : (n : ℚ) * 2 ^ (k + 52) * 2 ^ (54 - j) < 2 ^ (k + 52) + 255 * m * 2 ^ (54 - j) := by
      exact_mod_cast c4c
    have hJ : (0 : ℚ) < 2 ^ j := pow_pos (by norm_num) _
    have e51 : (2 : ℚ) ^ (j + k + 51) = 2 ^ j * 2 ^ (k + 52) / 2 := by
      rw [show j + k + 51 = j + (k + 51) by ring, pow_add, show k + 52 = (k + 51) + 1 by ring,
        pow_succ]
      ring
    have e52 : (2 : ℚ) ^ (j + k + 52) = 2 ^ j * 2 ^ (k + 52) := by
      rw [show j + k + 52 = j + (k + 52) by ring, pow_add]
    have e54 : (2 : ℚ) ^ (54 - j) * 2 ^ j = 2 ^ 54 := by
      rw [← pow_add]; congr 1; omega
    have w1 : (2 : ℚ) ^ ((j : ℤ) - 1) = 2 ^ j / 2 := by
      rw [zpow_sub₀ (by norm_num), zpow_natCast]; norm_num
    have w2 : (2 : ℚ) ^ ((j : ℤ) - 1 + 1) = 2 ^ j := by
      rw [sub_add_cancel, zpow_natCast]
    have w3 : (2 : ℚ) ^ ((j : ℤ) - 1 - 52) = 2 ^ j / 2 ^ 53 := by
      rw [show (j : ℤ) - 1 - 52 = (j : ℤ) - 53 by ring, zpow_sub₀ (by norm_num), zpow_natCast]
      norm_num
    have hp0 : (0 : ℚ) < (m : ℚ) / 2 ^ (k + 52) * 255 := by
      have : (0 : ℚ) < 255 * m := lt_of_lt_of_le (pow_pos (by norm_num) _) q4a
      have hm : (0 : ℚ) < m := by linarith
      exact mul_pos (div_pos hm hP) (by norm_num)
    have hB := float64_eq_of ((m : ℚ) / 2 ^ (k + 52) * 255) ((j : ℤ) - 1)
      ((n * 2 ^ (53 - j) : ℕ) : ℤ)
      (by
        rw [abs_of_pos hp0, w1, div_mul_eq_mul_div, le_div_iff₀ hP]
        rw [e51] at q4a
        linarith)
      (by
        rw [abs_of_pos hp0, w2, div_mul_eq_mul_div, div_lt_iff₀ hP]
        rw [e52] at q4b
        linarith)
      (by
        rw [w3, abs_lt]
        have e53 : (2 : ℚ) ^ (53 - j) * 2 ^ j = 2 ^ 53 := by
          rw [← pow_add]; congr 1; omega
        have e54b : (2 : ℚ) ^ (54 - j) = 2 * 2 ^ (53 - j) := by
          rw [show 54 - j = (53 - j) + 1 by omega, pow_succ]; ring
        have hS : (0 : ℚ) < 2 ^ (53 - j) := pow_pos (by norm_num) _
        have e : (m : ℚ) / 2 ^ (k + 52) * 255 / (2 ^ j / 2 ^ 53) =
            255 * m * 2 ^ (53 - j) / 2 ^ (k + 52) := by
          rw [← e53]
          field_simp
          ring
        rw [e]
        push_cast
        rw [e54b] at q4c
        have q4d : 255 * (m : ℚ) ≤ n * 2 ^ (k + 52) := by exact_mod_cast c4d
        have q4e : 255 * (m : ℚ) * 2 ^ (53 - j) ≤ n * 2 ^ (k + 52) * 2 ^ (53 - j) :=
          mul_le_mul_of_nonneg_right q4d hS.le
        constructor
        · rw [lt_sub_iff_add_lt, lt_div_iff₀ hP]
          linarith
        · rw [sub_lt_iff_lt_add, div_lt_iff₀ hP]
          linarith)
    rw [hB, w3]
    have e53 : (2 : ℚ) ^ (53 - j) * 2 ^ j = 2 ^ 53 := by
      rw [← pow_add]; congr 1; omega
    push_cast
    rw [mul_div_assoc', mul_assoc, e53]
    norm_num

/-- The finite check behind `roundTrip`: the integer conditions hold for every
`n` from 1 to 254. -/
theorem roundTripOk_all : ∀ n < 255, 1 ≤ n → roundTripOk n = true := by
  set_option maxRecDepth 100000 in decide

/-- In binary64, `(n / 255) * 255` is not below `n`, for `n` from 1 to 254. -/
theorem roundTrip (n : ℕ) (h1 : 1 ≤ n) (h2 : n ≤ 254) :
    (n : ℚ) ≤ float64 (float64 ((n : ℚ) / 255) * 255) := by
  have h := roundTripOk_all n (by omega) h1
  unfold roundTripOk at h
  obtain ⟨a, b, c, d, e⟩ := of_decide_eq_true h
  refine roundTrip_of n (rtK n) (rtM n) a b c d ?_
  rcases e with e | ⟨e1, e2, e3, e4, e5⟩
  · left; exact e
  · right; exact ⟨rtJ n, e1, e2, e3, e4, e5⟩

/-- The floor of a quotient of integers is the integer quotient. -/
theorem floor_intCast_div (a b : ℤ) (hb : 0 < b) : ⌊(a : ℚ) / (b : ℚ)⌋ = a / b := by
  obtain ⟨n, rfl⟩ := Int.eq_ofNat_of_zero_le hb.le
  exact Rat.floor_intCast_div_natCast a n

/-! ## The backend -/

namespace backend

/-- The clamped request lies in `0..255`. -/
theorem clamp_bounds (pwm : Int) :
    0 ≤ (if pwm > MaxPwmValue then MaxPwmValue else if pwm < MinPwmValue then MinPwmValue else pwm) ∧
    (if pwm > MaxPwmValue then MaxPwmValue else if pwm < MinPwmValue then MinPwmValue else pwm) ≤ 255 := by
  unfold MaxPwmValue MinPwmValue
  split_ifs <;> omega

/-- The scaled offset `int((pwm / 255) * (max - min))` is not negative when
`0 ≤ pwm` and `min ≤ max`. -/
theorem scaled_offset_nonneg (c minPwm maxPwm : Int) (hc0 : 0 ≤ c) (h : minPwm ≤ maxPwm) :
    0 ≤ goInt (fmul (fdiv (float64 (c : ℚ)) (MaxPwmValue : ℚ))
      (fsub (float64 (maxPwm : ℚ)) (float64 (minPwm : ℚ)))) := by
  have h1 : (0 : ℚ) ≤ float64 (c : ℚ) := float64_nonneg (by exact_mod_cast hc0)
  have h2 : (0 : ℚ) ≤ fdiv (float64 (c : ℚ)) (MaxPwmValue : ℚ) := by
    unfold fdiv
    apply float64_nonneg
    apply div_nonneg h1
    simp [MaxPwmValue]
  have h3 : float64 (minPwm : ℚ) ≤ float64 (maxPwm : ℚ) := float64_mono (by exact_mod_cast h)
  have h4 : (0 : ℚ) ≤ fsub (float64 (maxPwm : ℚ)) (float64 (minPwm : ℚ)) := by
    unfold fsub
    apply float64_nonneg
    linarith
  apply goInt_nonneg
  unfold fmul
  exact float64_nonneg (mul_nonneg h2 h4)

/-- For `0 ≤ t ≤ 255` and bounds `0 ≤ min ≤ max ≤ 255`, the float64 operands of
the mapping are the exact quotient `t / 255`, rounded once, and the exact
difference `max - min`. -/
theorem mapping_operands (t minPwm maxPwm : Int) (ht0 : 0 ≤ t) (ht1 : t ≤ 255)
    (hmin : 0 ≤ minPwm) (hle : minPwm ≤ maxPwm) (hmax : maxPwm ≤ 255) :
    fmul (fdiv (float64 (t : ℚ)) (MaxPwmValue : ℚ))
        (fsub (float64 (maxPwm : ℚ)) (float64 (minPwm : ℚ))) =
      float64 (float64 ((t : ℚ) / 255) * ((maxPwm - minPwm : Int) : ℚ)) := by
  have e1 : float64 (t : ℚ) = t := float64_intCast t (abs_le.mpr ⟨by omega, by omega⟩)
  have e2 : float64 (maxPwm : ℚ) = maxPwm :=
    float64_intCast maxPwm (abs_le.mpr ⟨by omega, by omega⟩)
  have e3 : float64 (minPwm : ℚ) = minPwm :=
    float64_intCast minPwm (abs_le.mpr ⟨by omega, by omega⟩)
  have e4 : float64 (((maxPwm - minPwm : Int) : ℚ)) = ((maxPwm - minPwm : Int) : ℚ) :=
    float64_intCast _ (abs_le.mpr ⟨by omega, by omega⟩)
  unfold fmul fdiv fsub
  rw [e1, e2, e3]
  have e5 : (maxPwm : ℚ) - (minPwm : ℚ) = ((maxPwm - minPwm : Int) : ℚ) := by push_cast; ring
  rw [e5, e4]
  simp [MaxPwmValue]

/-- The mapping of a target `0 ≤ t ≤ 255` into bounds `0 ≤ min ≤ max ≤ 255`: the
offset `int((t / 255) * (max - min))` is the integer quotient `t * (max - min) / 255`
when 255 does not divide the product, and that quotient or one less when it
does; it is 0 for `t = 0` and `max - min` for `t = 255`, and lies between the
two in every case. -/
theorem mapped_offset (t minPwm maxPwm : Int) (ht0 : 0 ≤ t) (ht1 : t ≤ 255)
    (hmin : 0 ≤ minPwm) (hle : minPwm ≤ maxPwm) (hmax : maxPwm ≤ 255) :
    (t * (maxPwm - minPwm) % 255 ≠ 0 →
      goInt (fmul (fdiv (float64 (t : ℚ)) (MaxPwmValue : ℚ))
        (fsub (float64 (maxPwm : ℚ)) (float64 (minPwm : ℚ)))) = t * (maxPwm - minPwm) / 255) ∧
    (t * (maxPwm - minPwm) % 255 = 0 →
      goInt (fmul (fdiv (float64 (t : ℚ)) (MaxPwmValue : ℚ))
        (fsub (float64 (maxPwm : ℚ)) (float64 (minPwm : ℚ)))) = t * (maxPwm - minPwm) / 255 ∨
      goInt (fmul (fdiv (float64 (t : ℚ)) (MaxPwmValue : ℚ))
        (fsub (float64 (maxPwm : ℚ)) (float64 (minPwm : ℚ)))) =
          t * (maxPwm - minPwm) / 255 - 1) ∧
    (t = 0 → goInt (fmul (fdiv (float64 (t : ℚ)) (MaxPwmValue : ℚ))
        (fsub (float64 (maxPwm : ℚ)) (float64 (minPwm : ℚ)))) = 0) ∧
    (t = 255 → goInt (fmul (fdiv (float64 (t : ℚ)) (MaxPwmValue : ℚ))
        (fsub (float64 (maxPwm : ℚ)) (float64 (minPwm : ℚ)))) = maxPwm - minPwm) ∧
    goInt (fmul (fdiv (float64 (t : ℚ)) (MaxPwmValue : ℚ))
        (fsub (float64 (maxPwm : ℚ)) (float64 (minPwm : ℚ)))) ≤ maxPwm - minPwm := by
  rw [mapping_operands t minPwm maxPwm ht0 ht1 hmin hle hmax]
  have hd0 : (0 : ℚ) ≤ ((maxPwm - minPwm : Int) : ℚ) := by
    have : 0 ≤ maxPwm - minPwm := by omega
    exact_mod_cast this
  have hd1 : ((maxPwm - minPwm : Int) : ℚ) ≤ 255 := by
    have : maxPwm - minPwm ≤ 255 := by omega
    exact_mod_cast this
  have ha0 : (0 : ℚ) ≤ (t : ℚ) / 255 := div_nonneg (by exact_mod_cast ht0) (by norm_num)
  have ha1 : (t : ℚ) / 255 ≤ 1 := by
    rw [div_le_one (by norm_num)]
    exact_mod_cast ht1
  obtain ⟨hp0, herr⟩ := two_step_err ((t : ℚ) / 255) _ ha0 ha1 hd0 hd1
  have hx : (t : ℚ) / 255 * ((maxPwm - minPwm : Int) : ℚ) =
      ((t * (maxPwm - minPwm) : Int) : ℚ) / ((255 : Int) : ℚ) := by
    push_cast
    ring
  rw [hx] at herr
  obtain ⟨f1, f2, _⟩ := floor_of_close (t * (maxPwm - minPwm)) 255 _ (by norm_num)
    (by norm_num) herr
  rw [goInt_of_nonneg hp0]
  refine ⟨f1, f2, ?_, ?_, ?_⟩
  · intro e
    subst e
    simp [float64_zero]
  · intro e
    subst e
    have one : float64 (((255 : Int) : ℚ) / 255) = 1 := by
      have : ((255 : Int) : ℚ) / 255 = ((1 : Int) : ℚ) := by norm_num
      rw [this, float64_intCast 1 (by norm_num)]
      norm_num
    rw [one, one_mul, float64_intCast _ (abs_le.mpr ⟨by omega, by omega⟩), Int.floor_intCast]
  · have hr1 : float64 ((t : ℚ) / 255) ≤ 1 := by
      have h := float64_le_of_le ((t : ℚ) / 255) ((1 : ℤ) : ℚ)
        (isFloat64_intCast 1 (by norm_num)) (by simpa using ha1)
      simpa using h
    have hle2 : float64 (float64 ((t : ℚ) / 255) * ((maxPwm - minPwm : Int) : ℚ)) ≤
        ((maxPwm - minPwm : Int) : ℚ) := by
      apply float64_le_of_le _ _ (isFloat64_intCast _ (abs_le.mpr ⟨by omega, by omega⟩))
      calc float64 ((t : ℚ) / 255) * ((maxPwm - minPwm : Int) : ℚ)
          ≤ 1 * ((maxPwm - minPwm : Int) : ℚ) := mul_le_mul_of_nonneg_right hr1 hd0
        _ = ((maxPwm - minPwm : Int) : ℚ) := one_mul _
    rw [← goInt_of_nonneg hp0]
    exact goInt_le_of_le hp0 hle2

/-- The second half of `setPwm`: nothing happens when the output already reads
the mapped command, otherwise the mapped command is written to the output. -/
theorem setPwm_writes (db : persistence.Store) (fan : Fan) (pwm : Int) (fs : util.Sysfs)
    (target : Int) (h : setPwmTarget db fan pwm = some target) :
    ∃ out, setPwm db fan pwm fs = some out ∧ out.target = target ∧
      ((getPwm fs fan = target ∧ out.fs = fs) ∨
       (getPwm fs fan ≠ target ∧
         out.fs.writes = fs.writes ++ [(fan.PwmOutput, target)])) := by
  unfold setPwm
  rw [h]
  by_cases hc : target = getPwm fs fan
  · simp [hc]
  · have hc2 : getPwm fs fan ≠ target := fun e => hc e.symm
    simp only [hc, if_false]
    unfold util.WriteIntToFile
    cases hacc : fs.accept fan.PwmOutput target <;> simp [hc2]

/-- C1: for every requested speed and every fan whose effective bounds satisfy
`0 ≤ effectiveMin ≤ effectiveMax ≤ 255`, the command that `setPwm` computes lies
between the effective bounds (hence in `0..255`), and the only value `setPwm` may
write to the fan output is that command. -/
theorem setPwm_within_bounds (db : persistence.Store) (fan : Fan) (pwm : Int)
    (fs : util.Sysfs) (effectiveMin : Int)
    (hmin : getMinPwmValue db fan = some effectiveMin)
    (h0 : 0 ≤ effectiveMin) (h1 : effectiveMin ≤ getMaxPwmValue fan)
    (h2 : getMaxPwmValue fan ≤ 255) :
    ∃ out, setPwm db fan pwm fs = some out ∧
      0 ≤ out.target ∧ out.target ≤ 255 ∧
      effectiveMin ≤ out.target ∧ out.target ≤ getMaxPwmValue fan ∧
      (out.fs.writes = fs.writes ∨
        out.fs.writes = fs.writes ++ [(fan.PwmOutput, out.target)]) := by
  obtain ⟨hc0, hc1⟩ := clamp_bounds pwm
  have hs0 := scaled_offset_nonneg _ effectiveMin (getMaxPwmValue fan) hc0 h1
  have hs1 := (mapped_offset _ effectiveMin (getMaxPwmValue fan) hc0 hc1 h0 h1 h2).2.2.2.2
  have ht : setPwmTarget db fan pwm = some (effectiveMin + goInt
      (fmul (fdiv (float64 ((if pwm > MaxPwmValue then MaxPwmValue
          else if pwm < MinPwmValue then MinPwmValue else pwm : Int) : ℚ)) (MaxPwmValue : ℚ))
        (fsub (float64 (getMaxPwmValue fan : ℚ)) (float64 (effectiveMin : ℚ))))) := by
    unfold setPwmTarget
    rw [hmin]
  obtain ⟨out, hout, htgt, hw⟩ := setPwm_writes db fan pwm fs _ ht
  refine ⟨out, hout, ?_, ?_, ?_, ?_, ?_⟩
  · rw [htgt]; omega
  · rw [htgt]; omega
  · rw [htgt]; omega
  · rw [htgt]; omega
  · rcases hw with ⟨_, hfs⟩ | ⟨_, hwr⟩
    · left; rw [hfs]
    · right; rw [hwr, htgt]

/-- C1 at a fan with persisted minimum 40 and maximum 200, requested speed 300. -/
theorem setPwm_within_bounds_witness :
    getMinPwmValue exStore exFan = some 40 ∧ (0 : Int) ≤ 40 ∧ 40 ≤ getMaxPwmValue exFan ∧
    getMaxPwmValue exFan ≤ 255 ∧
    ∃ out, setPwm exStore exFan 300 exSysfs = some out ∧
      0 ≤ out.target ∧ out.target ≤ 255 ∧
      40 ≤ out.target ∧ out.target ≤ getMaxPwmValue exFan ∧
      (out.fs.writes = exSysfs.writes ∨
        out.fs.writes = exSysfs.writes ++ [(exFan.PwmOutput, out.target)]) :=
  ⟨rfl, by decide, by decide, by decide,
    setPwm_within_bounds exStore exFan 300 exSysfs 40 rfl (by decide) (by decide) (by decide)⟩

/-- C2: for a fan configured never to stop, with learned `StartPwm = s` and
`MaxPwm ≥ s`, the command of `setPwm` is at least `s` for every requested speed,
and it is exactly `s` when the requested speed is `0` (or below); the only value
`setPwm` may write is that command. -/
theorem setPwm_neverStop_ge_start (db : persistence.Store) (fan : Fan) (cfg : FanConfig)
    (pwm : Int) (fs : util.Sysfs)
    (hcfg : fan.Config = some cfg) (hns : cfg.NeverStop = true)
    (hle : fan.StartPwm ≤ fan.MaxPwm) :
    ∃ out, setPwm db fan pwm fs = some out ∧
      fan.StartPwm ≤ out.target ∧ (pwm ≤ 0 → out.target = fan.StartPwm) ∧
      (out.fs.writes = fs.writes ∨
        out.fs.writes = fs.writes ++ [(fan.PwmOutput, out.target)]) := by
  have hmin : getMinPwmValue db fan = some fan.StartPwm := by
    unfold getMinPwmValue
    rw [hcfg]
    simp [hns]
  obtain ⟨hc0, hc1⟩ := clamp_bounds pwm
  have hs0 := scaled_offset_nonneg _ fan.StartPwm (getMaxPwmValue fan) hc0 hle
  have ht : setPwmTarget db fan pwm = some (fan.StartPwm + goInt
      (fmul (fdiv (float64 ((if pwm > MaxPwmValue then MaxPwmValue
          else if pwm < MinPwmValue then MinPwmValue else pwm : Int) : ℚ)) (MaxPwmValue : ℚ))
        (fsub (float64 (getMaxPwmValue fan : ℚ)) (float64 (fan.StartPwm : ℚ))))) := by
    unfold setPwmTarget
    rw [hmin]
  obtain ⟨out, hout, htgt, hw⟩ := setPwm_writes db fan pwm fs _ ht
  refine ⟨out, hout, ?_, ?_, ?_⟩
  · rw [htgt]; omega
  · intro hp
    rw [htgt]
    have hz : (if pwm > MaxPwmValue then MaxPwmValue
        else if pwm < MinPwmValue then MinPwmValue else pwm : Int) = 0 := by
      unfold MaxPwmValue MinPwmValue
      split_ifs <;> omega
    rw [hz]
    simp [fmul, fdiv, float64_zero, goInt_zero]
  · rcases hw with ⟨_, hfs⟩ | ⟨_, hwr⟩
    · left; rw [hfs]
    · right; rw [hwr, htgt]

/-- C2 at a never-stop fan with `StartPwm = 30`, `MaxPwm = 200`, requested speed 0. -/
theorem setPwm_neverStop_ge_start_witness :
    exNeverStopFan.StartPwm ≤ exNeverStopFan.MaxPwm ∧
    ∃ out, setPwm exStore exNeverStopFan 0 exSysfs = some out ∧
      exNeverStopFan.StartPwm ≤ out.target ∧ ((0 : Int) ≤ 0 → out.target = exNeverStopFan.StartPwm) ∧
      (out.fs.writes = exSysfs.writes ∨
        out.fs.writes = exSysfs.writes ++ [(exNeverStopFan.PwmOutput, out.target)]) :=
  ⟨by decide, setPwm_neverStop_ge_start exStore exNeverStopFan
    { Id := "cpu_fan", Platform := "nct6798", Fan := 1, Sensor := "cpu", NeverStop := true }
    0 exSysfs rfl rfl (by decide)⟩

/-- With the fan and the sensor configured, `calculateTargetSpeed` is the
three-way case distinction on the truncated window mean. -/
theorem calculateTargetSpeed_eq (SensorMap : String → Option Sensor) (fan : Fan)
    (fanConfig : FanConfig) (sensor : Sensor) (sensorConfig : SensorConfig)
    (minTemp maxTemp avg : Int)
    (hfan : fan.Config = some fanConfig) (hmap : SensorMap fanConfig.Sensor = some sensor)
    (hcfg : sensor.Config = some sensorConfig)
    (hmin : wrapInt64 (sensorConfig.Min * 1000) = minTemp)
    (hmax : wrapInt64 (sensorConfig.Max * 1000) = maxTemp)
    (havg : goInt (sensor.Values.Reduce rolling.Avg) = avg) :
    calculateTargetSpeed SensorMap fan =
      some (if avg ≥ maxTemp then ⟨255, []⟩
        else if avg ≤ minTemp then ⟨0, []⟩
        else ⟨goInt (fmul (fdiv (fsub (float64 (avg : ℚ)) (float64 (minTemp : ℚ)))
            (fsub (float64 (maxTemp : ℚ)) (float64 (minTemp : ℚ)))) 255),
          [fsub (float64 (maxTemp : ℚ)) (float64 (minTemp : ℚ))]⟩) := by
  unfold calculateTargetSpeed
  rw [hfan]
  simp only [hmap, hcfg, hmin, hmax, havg]
  split_ifs <;> rfl

/-- With thresholds of magnitude at most `2 ^ 53`, which convert to `float64`
exactly, the divisor of the interpolation is at least 1. -/
theorem divisor_pos (minTemp maxTemp : Int) (h : minTemp < maxTemp)
    (hmin : |minTemp| ≤ 2 ^ 53) (hmax : |maxTemp| ≤ 2 ^ 53) :
    1 ≤ fsub (float64 (maxTemp : ℚ)) (float64 (minTemp : ℚ)) := by
  unfold fsub
  rw [float64_intCast minTemp hmin, float64_intCast maxTemp hmax]
  have h1 := le_float64_of_le ((maxTemp : ℚ) - (minTemp : ℚ)) ((1 : ℤ) : ℚ)
    (isFloat64_intCast 1 (by norm_num)) (by
      have : (1 : ℤ) ≤ maxTemp - minTemp := by omega
      have : ((1 : ℤ) : ℚ) ≤ ((maxTemp - minTemp : ℤ) : ℚ) := by exact_mod_cast this
      push_cast at this ⊢
      linarith)
  simpa using h1

/-- C3 (amended): let `avg` be the window mean truncated toward zero to an
integer and `min`, `max` the thresholds in milli-degrees as the code computes
them.  `calculateTargetSpeed` returns 255 whenever `avg ≥ max`, returns 0
whenever `avg < max` and `avg ≤ min`, and evaluates the interpolation division
only when `min < avg < max` (and always then); this includes the zero-width
range `min = max`.  For a window mean that is not negative, the three statements
also hold with the window mean itself in place of `avg`.  When the thresholds
have magnitude at most `2 ^ 53`, the divisor of the division is not zero. -/
theorem calculateTargetSpeed_branches (SensorMap : String → Option Sensor) (fan : Fan)
    (fanConfig : FanConfig) (sensor : Sensor) (sensorConfig : SensorConfig)
    (minTemp maxTemp avg : Int)
    (hfan : fan.Config = some fanConfig) (hmap : SensorMap fanConfig.Sensor = some sensor)
    (hcfg : sensor.Config = some sensorConfig)
    (hmin : wrapInt64 (sensorConfig.Min * 1000) = minTemp)
    (hmax : wrapInt64 (sensorConfig.Max * 1000) = maxTemp)
    (havg : goInt (sensor.Values.Reduce rolling.Avg) = avg) :
    ∃ r, calculateTargetSpeed SensorMap fan = some r ∧
      (avg ≥ maxTemp → r.value = 255 ∧ r.divisors = []) ∧
      (avg < maxTemp → avg ≤ minTemp → r.value = 0 ∧ r.divisors = []) ∧
      (minTemp < avg → avg < maxTemp →
        r.divisors = [fsub (float64 (maxTemp : ℚ)) (float64 (minTemp : ℚ))]) ∧
      (r.divisors ≠ [] → minTemp < avg ∧ avg < maxTemp) ∧
      (0 ≤ sensor.Values.Reduce rolling.Avg →
        ((maxTemp : ℚ) ≤ sensor.Values.Reduce rolling.Avg → r.value = 255 ∧ r.divisors = []) ∧
        (sensor.Values.Reduce rolling.Avg < (maxTemp : ℚ) →
          sensor.Values.Reduce rolling.Avg ≤ (minTemp : ℚ) → r.value = 0 ∧ r.divisors = []) ∧
        (r.divisors ≠ [] → (minTemp : ℚ) < sensor.Values.Reduce rolling.Avg ∧
          sensor.Values.Reduce rolling.Avg < (maxTemp : ℚ))) ∧
      (|minTemp| ≤ 2 ^ 53 → |maxTemp| ≤ 2 ^ 53 → ∀ d ∈ r.divisors, d ≠ 0) := by
  have b1 : avg ≥ maxTemp →
      (if avg ≥ maxTemp then (⟨255, []⟩ : TargetEval)
        else if avg ≤ minTemp then ⟨0, []⟩
        else ⟨goInt (fmul (fdiv (fsub (float64 (avg : ℚ)) (float64 (minTemp : ℚ)))
            (fsub (float64 (maxTemp : ℚ)) (float64 (minTemp : ℚ)))) 255),
          [fsub (float64 (maxTemp : ℚ)) (float64 (minTemp : ℚ))]⟩) = ⟨255, []⟩ := by
    intro h; simp [h]
  have b2 : avg < maxTemp → avg ≤ minTemp →
      (if avg ≥ maxTemp then (⟨255, []⟩ : TargetEval)
        else if avg ≤ minTemp then ⟨0, []⟩
        else ⟨goInt (fmul (fdiv (fsub (float64 (avg : ℚ)) (float64 (minTemp : ℚ)))
            (fsub (float64 (maxTemp : ℚ)) (float64 (minTemp : ℚ)))) 255),
          [fsub (float64 (maxTemp : ℚ)) (float64 (minTemp : ℚ))]⟩) = ⟨0, []⟩ := by
    intro h1 h2
    have : ¬ avg ≥ maxTemp := by omega
    simp [this, h2]
  have b3 : minTemp < avg → avg < maxTemp →
      (if avg ≥ maxTemp then (⟨255, []⟩ : TargetEval)
        else if avg ≤ minTemp then ⟨0, []⟩
        else ⟨goInt (fmul (fdiv (fsub (float64 (avg : ℚ)) (float64 (minTemp : ℚ)))
            (fsub (float64 (maxTemp : ℚ)) (float64 (minTemp : ℚ)))) 255),
          [fsub (float64 (maxTemp : ℚ)) (float64 (minTemp : ℚ))]⟩) =
        ⟨goInt (fmul (fdiv (fsub (float64 (avg : ℚ)) (float64 (minTemp : ℚ)))
            (fsub (float64 (maxTemp : ℚ)) (float64 (minTemp : ℚ)))) 255),
          [fsub (float64 (maxTemp : ℚ)) (float64 (minTemp : ℚ))]⟩ := by
    intro h1 h2
    have a : ¬ avg ≥ maxTemp := by omega
    have b : ¬ avg ≤ minTemp := by omega
    simp [a, b]
  have hcases : avg ≥ maxTemp ∨ (avg < maxTemp ∧ avg ≤ minTemp) ∨
      (minTemp < avg ∧ avg < maxTemp) := by omega
  refine ⟨_, calculateTargetSpeed_eq SensorMap fan fanConfig sensor sensorConfig
    minTemp maxTemp avg hfan hmap hcfg hmin hmax havg, ?_, ?_, ?_, ?_, ?_, ?_⟩
  · intro h; rw [b1 h]; exact ⟨rfl, rfl⟩
  · intro h1 h2; rw [b2 h1 h2]; exact ⟨rfl, rfl⟩
  · intro h1 h2; rw [b3 h1 h2]
  · intro h
    rcases hcases with c | ⟨c1, c2⟩ | c
    · rw [b1 c] at h; exact absurd rfl h
    · rw [b2 c1 c2] at h; exact absurd rfl h
    · exact c
  · intro hpos
    have hfloor : avg = ⌊sensor.Values.Reduce rolling.Avg⌋ := by
      rw [← havg, goInt_of_nonneg hpos]
    have hle := Int.floor_le (sensor.Values.Reduce rolling.Avg)
    have hlt := Int.lt_floor_add_one (sensor.Values.Reduce rolling.Avg)
    refine ⟨?_, ?_, ?_⟩
    · intro h
      have : maxTemp ≤ avg := by rw [hfloor]; exact Int.le_floor.mpr h
      rw [b1 this]; exact ⟨rfl, rfl⟩
    · intro h1 h2
      have hq1 : ((avg : ℤ) : ℚ) < (maxTemp : ℚ) := by rw [hfloor]; linarith
      have hq2 : ((avg : ℤ) : ℚ) ≤ (minTemp : ℚ) := by rw [hfloor]; linarith
      have c1 : avg < maxTemp := by exact_mod_cast hq1
      have c2 : avg ≤ minTemp := by exact_mod_cast hq2
      rw [b2 c1 c2]; exact ⟨rfl, rfl⟩
    · intro h
      rcases hcases with c | ⟨c1, c2⟩ | ⟨c1, c2⟩
      · rw [b1 c] at h; exact absurd rfl h
      · rw [b2 c1 c2] at h; exact absurd rfl h
      · have q1 : ((minTemp : ℤ) : ℚ) < ((avg : ℤ) : ℚ) := by exact_mod_cast c1
        have q2 : ((avg : ℤ) : ℚ) + 1 ≤ ((maxTemp : ℤ) : ℚ) := by
          have : avg + 1 ≤ maxTemp := by omega
          exact_mod_cast this
        rw [hfloor] at q1 q2
        constructor <;> linarith
  · intro r1 r2 d hd
    rcases hcases with c | ⟨c1, c2⟩ | ⟨c1, c2⟩
    · rw [b1 c] at hd; simp at hd
    · rw [b2 c1 c2] at hd; simp at hd
    · rw [b3 c1 c2] at hd
      simp only [List.mem_singleton] at hd
      rw [hd]
      have := divisor_pos minTemp maxTemp (by omega) r1 r2
      linarith

/-- The truncated window mean of `exSensor`. -/
theorem exSensor_avg : goInt (exSensor.Values.Reduce rolling.Avg) = 50000 := by
  simp [exSensor, rolling.PointPolicy.Reduce, rolling.Avg]
  norm_num [goInt]

/-- C3 (amended) at thresholds 20000 and 80000 milli-degrees and a window mean of
50000. -/
theorem calculateTargetSpeed_branches_witness :
    ∃ r, calculateTargetSpeed exSensorMap exFan = some r ∧
      ((50000 : Int) ≥ 80000 → r.value = 255 ∧ r.divisors = []) ∧
      ((50000 : Int) < 80000 → (50000 : Int) ≤ 20000 → r.value = 0 ∧ r.divisors = []) ∧
      ((20000 : Int) < 50000 → (50000 : Int) < 80000 →
        r.divisors = [fsub (float64 ((80000 : Int) : ℚ)) (float64 ((20000 : Int) : ℚ))]) ∧
      (r.divisors ≠ [] → (20000 : Int) < 50000 ∧ (50000 : Int) < 80000) ∧
      (0 ≤ exSensor.Values.Reduce rolling.Avg →
        (((80000 : Int) : ℚ) ≤ exSensor.Values.Reduce rolling.Avg →
          r.value = 255 ∧ r.divisors = []) ∧
        (exSensor.Values.Reduce rolling.Avg < ((80000 : Int) : ℚ) →
          exSensor.Values.Reduce rolling.Avg ≤ ((20000 : Int) : ℚ) →
          r.value = 0 ∧ r.divisors = []) ∧
        (r.divisors ≠ [] → ((20000 : Int) : ℚ) < exSensor.Values.Reduce rolling.Avg ∧
          exSensor.Values.Reduce rolling.Avg < ((80000 : Int) : ℚ))) ∧
      (|(20000 : Int)| ≤ 2 ^ 53 → |(80000 : Int)| ≤ 2 ^ 53 → ∀ d ∈ r.divisors, d ≠ 0) :=
  calculateTargetSpeed_branches exSensorMap exFan
    { Id := "cpu_fan", Platform := "nct6798", Fan := 1, Sensor := "cpu", NeverStop := false }
    exSensor { Id := "cpu", Platform := "nct6798", Index := 1, Min := 20, Max := 80 }
    20000 80000 50000 rfl rfl rfl (by decide) (by decide) exSensor_avg

/-- The nearest `float64` of both thresholds of `hugeSensor`. -/
theorem hugeSensor_thresholds :
    float64 ((4611686018427413000 : Int) : ℚ) = 4611686018427413504 ∧
    float64 ((4611686018427414000 : Int) : ℚ) = 4611686018427413504 := by
  constructor
  · rw [float64_eq_of _ 62 4503599627370521 (by norm_num [abs_of_pos])
      (by norm_num [abs_of_pos]) (by norm_num [abs_lt])]
    norm_num
  · rw [float64_eq_of _ 62 4503599627370521 (by norm_num [abs_of_pos])
      (by norm_num [abs_of_pos]) (by norm_num [abs_lt])]
    norm_num

/-- C3 (counterexample): with both thresholds at -5000 milli-degrees and the
window mean -5000.5, which is below the maximum and not above the minimum,
`calculateTargetSpeed` returns 255 and not 0 (the mean is truncated to -5000
first).  With the thresholds 4611686018427413000 and 4611686018427414000 and a
window mean strictly between them, the division is evaluated and its divisor is
zero. -/
theorem calculateTargetSpeed_branches_counterexample :
    (wrapInt64 (-5 * 1000) = -5000 ∧
      coldSensor.Values.Reduce rolling.Avg < ((-5000 : Int) : ℚ) ∧
      coldSensor.Values.Reduce rolling.Avg ≤ ((-5000 : Int) : ℚ) ∧
      (calculateTargetSpeed (fun _ => some coldSensor) exFan).map TargetEval.value =
        some 255) ∧
    (wrapInt64 (4611686018427413 * 1000) = 4611686018427413000 ∧
      wrapInt64 (4611686018427414 * 1000) = 4611686018427414000 ∧
      goInt (hugeSensor.Values.Reduce rolling.Avg) = 4611686018427413504 ∧
      (calculateTargetSpeed (fun _ => some hugeSensor) exFan).map TargetEval.divisors =
        some [0]) := by
  have hcold : goInt (coldSensor.Values.Reduce rolling.Avg) = -5000 := by
    have : coldSensor.Values.Reduce rolling.Avg = -(10001 / 2) := by
      simp [coldSensor, rolling.PointPolicy.Reduce, rolling.Avg]
      norm_num
    rw [this]
    have hneg : ¬ (0 : ℚ) ≤ -(10001 / 2) := by norm_num
    simp only [goInt, hneg, if_false]
    rw [Int.ceil_eq_iff]
    constructor <;> norm_num
  have hhuge : goInt (hugeSensor.Values.Reduce rolling.Avg) = 4611686018427413504 := by
    simp [hugeSensor, rolling.PointPolicy.Reduce, rolling.Avg]
    norm_num [goInt]
  have w1 : wrapInt64 (-5 * 1000) = -5000 := by decide
  have w2 : wrapInt64 (4611686018427413 * 1000) = 4611686018427413000 := by decide
  have w3 : wrapInt64 (4611686018427414 * 1000) = 4611686018427414000 := by decide
  refine ⟨⟨w1, ?_, ?_, ?_⟩, w2, w3, hhuge, ?_⟩
  · simp [coldSensor, rolling.PointPolicy.Reduce, rolling.Avg]
    norm_num
  · simp [coldSensor, rolling.PointPolicy.Reduce, rolling.Avg]
    norm_num
  · rw [calculateTargetSpeed_eq (fun _ => some coldSensor) exFan
      { Id := "cpu_fan", Platform := "nct6798", Fan := 1, Sensor := "cpu", NeverStop := false }
      coldSensor { Id := "cpu", Platform := "nct6798", Index := 1, Min := -5, Max := -5 }
      (-5000) (-5000) (-5000) rfl rfl rfl w1 w1 hcold]
    simp
  · rw [calculateTargetSpeed_eq (fun _ => some hugeSensor) exFan
      { Id := "cpu_fan", Platform := "nct6798", Fan := 1, Sensor := "cpu", NeverStop := false }
      hugeSensor
      { Id := "cpu", Platform := "nct6798", Index := 1, Min := 4611686018427413,
        Max := 4611686018427414 }
      4611686018427413000 4611686018427414000 4611686018427413504 rfl rfl rfl w2 w3 hhuge]
    have a : ¬ (4611686018427413504 : Int) ≥ 4611686018427414000 := by decide
    have b : ¬ (4611686018427413504 : Int) ≤ 4611686018427413000 := by decide
    simp only [a, b, if_false, Option.map_some']
    rw [hugeSensor_thresholds.1, hugeSensor_thresholds.2]
    simp [fsub, float64_zero]

/-- Inside the interpolation range, for thresholds of magnitude at most `2 ^ 40`, the
divisor is the exact difference of the thresholds and the result of the float64
computation, truncated, is the integer quotient `255 * (avg - min) / (max - min)`. -/
theorem interpolation_value (minTemp maxTemp avg : Int) (h1 : minTemp < avg)
    (h2 : avg < maxTemp) (hmin : |minTemp| ≤ 2 ^ 40) (hmax : |maxTemp| ≤ 2 ^ 40) :
    fsub (float64 (maxTemp : ℚ)) (float64 (minTemp : ℚ)) = ((maxTemp - minTemp : Int) : ℚ) ∧
    goInt (fmul (fdiv (fsub (float64 (avg : ℚ)) (float64 (minTemp : ℚ)))
      (fsub (float64 (maxTemp : ℚ)) (float64 (minTemp : ℚ)))) 255) =
        255 * (avg - minTemp) / (maxTemp - minTemp) := by
  obtain ⟨m1, m2⟩ := abs_le.mp hmin
  obtain ⟨m3, m4⟩ := abs_le.mp hmax
  have c1 : float64 (avg : ℚ) = avg := float64_intCast avg (abs_le.mpr ⟨by omega, by omega⟩)
  have c2 : float64 (minTemp : ℚ) = minTemp :=
    float64_intCast minTemp (abs_le.mpr ⟨by omega, by omega⟩)
  have c3 : float64 (maxTemp : ℚ) = maxTemp :=
    float64_intCast maxTemp (abs_le.mpr ⟨by omega, by omega⟩)
  have s1 : fsub (float64 (avg : ℚ)) (float64 (minTemp : ℚ)) = ((avg - minTemp : Int) : ℚ) := by
    unfold fsub
    rw [c1, c2]
    have : (avg : ℚ) - (minTemp : ℚ) = ((avg - minTemp : Int) : ℚ) := by push_cast; ring
    rw [this]
    exact float64_intCast _ (abs_le.mpr ⟨by omega, by omega⟩)
  have s2 : fsub (float64 (maxTemp : ℚ)) (float64 (minTemp : ℚ)) =
      ((maxTemp - minTemp : Int) : ℚ) := by
    unfold fsub
    rw [c3, c2]
    have : (maxTemp : ℚ) - (minTemp : ℚ) = ((maxTemp - minTemp : Int) : ℚ) := by push_cast; ring
    rw [this]
    exact float64_intCast _ (abs_le.mpr ⟨by omega, by omega⟩)
  refine ⟨s2, ?_⟩
  rw [s1, s2]
  unfold fmul fdiv
  generalize hA : avg - minTemp = A
  generalize hD : maxTemp - minTemp = D
  have hA0 : 0 < A := by omega
  have hAD : A < D := by omega
  have hD0 : 0 < D := by omega
  have hD2 : D ≤ 2 ^ 41 := by omega
  have qA0 : (0 : ℚ) < (A : ℚ) := by exact_mod_cast hA0
  have qD0 : (0 : ℚ) < (D : ℚ) := by exact_mod_cast hD0
  have qAD : (A : ℚ) < (D : ℚ) := by exact_mod_cast hAD
  have ha0 : (0 : ℚ) ≤ (A : ℚ) / (D : ℚ) := (div_pos qA0 qD0).le
  have ha1 : (A : ℚ) / (D : ℚ) ≤ 1 := by
    rw [div_le_one qD0]; exact qAD.le
  obtain ⟨hp0, herr⟩ := two_step_err ((A : ℚ) / (D : ℚ)) 255 ha0 ha1 (by norm_num) (le_refl _)
  have hx : (A : ℚ) / (D : ℚ) * 255 = ((255 * A : Int) : ℚ) / (D : ℚ) := by
    push_cast
    ring
  rw [hx] at herr
  obtain ⟨f1, _, f3⟩ := floor_of_close (255 * A) D _ hD0 hD2 herr
  rw [goInt_of_nonneg hp0]
  by_cases hdiv : 255 * A % D = 0
  · apply f3
    have hmul : D * (255 * A / D) = 255 * A := by
      have := Int.ediv_add_emod (255 * A) D
      rw [hdiv] at this
      linarith
    have hn1 : 1 ≤ 255 * A / D := by
      by_contra hc
      have : 255 * A / D ≤ 0 := by omega
      nlinarith
    have hn2 : 255 * A / D ≤ 254 := by
      by_contra hc
      have : 255 ≤ 255 * A / D := by omega
      nlinarith
    obtain ⟨k, hk⟩ := Int.eq_ofNat_of_zero_le (by omega : 0 ≤ 255 * A / D)
    have hk1 : 1 ≤ k := by omega
    have hk2 : k ≤ 254 := by omega
    have hmulq : (D : ℚ) * (k : ℚ) = 255 * (A : ℚ) := by
      rw [hk] at hmul
      exact_mod_cast hmul
    have hratio : (A : ℚ) / (D : ℚ) = (k : ℚ) / 255 := by
      field_simp
      linarith
    have hquot : ((255 * A : Int) : ℚ) / (D : ℚ) = (k : ℚ) := by
      push_cast
      field_simp
      linarith
    rw [hquot, hratio]
    exact roundTrip k hk1 hk2
  · exact f1 hdiv

/-- The target speed of `exFan`: `int(0.5 * 255)`. -/
theorem exFan_target : calculateTargetSpeed exSensorMap exFan = some ⟨127, [60000]⟩ := by
  rw [calculateTargetSpeed_eq exSensorMap exFan
    { Id := "cpu_fan", Platform := "nct6798", Fan := 1, Sensor := "cpu", NeverStop := false }
    exSensor { Id := "cpu", Platform := "nct6798", Index := 1, Min := 20, Max := 80 }
    20000 80000 50000 rfl rfl rfl (by decide) (by decide) exSensor_avg]
  obtain ⟨e1, e2⟩ := interpolation_value 20000 80000 50000 (by decide) (by decide)
    (by norm_num) (by norm_num)
  have a : ¬ (50000 : Int) ≥ 80000 := by decide
  have b : ¬ (50000 : Int) ≤ 20000 := by decide
  simp only [a, b, if_false]
  rw [e2, e1]
  norm_num

/-- C4 (amended): let `avg` be the window mean truncated toward zero to an
integer and `min < max` the thresholds in milli-degrees as the code computes
them.  If the thresholds have magnitude at most `2 ^ 40` and `min < avg < max`,
`calculateTargetSpeed` returns `255 * (avg - min) / (max - min)` rounded down to
an integer (not to the nearest one); for `min = 20000`, `max = 80000` it returns
0 at `avg = 20000`, 255 at `avg = 80000`, 127 at `avg = 50000`, 255 at
`avg = 90000` and 0 at `avg = 10000`. -/
theorem calculateTargetSpeed_interpolation (SensorMap : String → Option Sensor) (fan : Fan)
    (fanConfig : FanConfig) (sensor : Sensor) (sensorConfig : SensorConfig)
    (minTemp maxTemp avg : Int)
    (hfan : fan.Config = some fanConfig) (hmap : SensorMap fanConfig.Sensor = some sensor)
    (hcfg : sensor.Config = some sensorConfig)
    (hmin : wrapInt64 (sensorConfig.Min * 1000) = minTemp)
    (hmax : wrapInt64 (sensorConfig.Max * 1000) = maxTemp)
    (havg : goInt (sensor.Values.Reduce rolling.Avg) = avg) :
    ∃ r, calculateTargetSpeed SensorMap fan = some r ∧
      (|minTemp| ≤ 2 ^ 40 → |maxTemp| ≤ 2 ^ 40 → minTemp < avg → avg < maxTemp →
        r.value = ⌊(255 * ((avg : ℚ) - (minTemp : ℚ))) / ((maxTemp : ℚ) - (minTemp : ℚ))⌋) ∧
      (minTemp = 20000 → maxTemp = 80000 →
        (avg = 20000 → r.value = 0) ∧ (avg = 80000 → r.value = 255) ∧
        (avg = 50000 → r.value = 127) ∧ (avg = 90000 → r.value = 255) ∧
        (avg = 10000 → r.value = 0)) := by
  refine ⟨_, calculateTargetSpeed_eq SensorMap fan fanConfig sensor sensorConfig
    minTemp maxTemp avg hfan hmap hcfg hmin hmax havg, ?_, ?_⟩
  · intro r1 r2 h1 h2
    have a : ¬ avg ≥ maxTemp := by omega
    have b : ¬ avg ≤ minTemp := by omega
    simp only [a, b, if_false]
    rw [(interpolation_value minTemp maxTemp avg h1 h2 r1 r2).2]
    have e : (255 * ((avg : ℚ) - (minTemp : ℚ))) / ((maxTemp : ℚ) - (minTemp : ℚ)) =
        ((255 * (avg - minTemp) : Int) : ℚ) / ((maxTemp - minTemp : Int) : ℚ) := by
      push_cast
      ring
    rw [e, floor_intCast_div _ _ (by omega)]
  · intro e1 e2
    subst e1 e2
    refine ⟨?_, ?_, ?_, ?_, ?_⟩ <;> intro e <;> subst e
    · simp
    · simp
    · have a : ¬ (50000 : Int) ≥ 80000 := by decide
      have b : ¬ (50000 : Int) ≤ 20000 := by decide
      simp only [a, b, if_false]
      rw [(interpolation_value 20000 80000 50000 (by decide) (by decide)
        (by norm_num) (by norm_num)).2]
      decide
    · simp
    · simp

/-- C4 (amended) at thresholds 20000 and 80000 milli-degrees and a window mean of
50000. -/
theorem calculateTargetSpeed_interpolation_witness :
    ∃ r, calculateTargetSpeed exSensorMap exFan = some r ∧
      (|(20000 : Int)| ≤ 2 ^ 40 → |(80000 : Int)| ≤ 2 ^ 40 →
        (20000 : Int) < 50000 → (50000 : Int) < 80000 →
        r.value = ⌊(255 * (((50000 : Int) : ℚ) - ((20000 : Int) : ℚ))) /
          (((80000 : Int) : ℚ) - ((20000 : Int) : ℚ))⌋) ∧
      ((20000 : Int) = 20000 → (80000 : Int) = 80000 →
        ((50000 : Int) = 20000 → r.value = 0) ∧ ((50000 : Int) = 80000 → r.value = 255) ∧
        ((50000 : Int) = 50000 → r.value = 127) ∧ ((50000 : Int) = 90000 → r.value = 255) ∧
        ((50000 : Int) = 10000 → r.value = 0)) :=
  calculateTargetSpeed_interpolation exSensorMap exFan
    { Id := "cpu_fan", Platform := "nct6798", Fan := 1, Sensor := "cpu", NeverStop := false }
    exSensor { Id := "cpu", Platform := "nct6798", Index := 1, Min := 20, Max := 80 }
    20000 80000 50000 rfl rfl rfl (by decide) (by decide) exSensor_avg

/-- The float64 computation of `calculateTargetSpeed` for `wideSensor`: the ratio
`596078431372549 / 2000000000000000`, rounded, times 255 rounds to 76. -/
theorem wideSensor_value :
    goInt (fmul (fdiv (fsub (float64 ((596078431372549 : Int) : ℚ)) (float64 ((0 : Int) : ℚ)))
      (fsub (float64 ((2000000000000000 : Int) : ℚ)) (float64 ((0 : Int) : ℚ)))) 255) = 76 := by
  have c1 : float64 ((596078431372549 : Int) : ℚ) = ((596078431372549 : Int) : ℚ) :=
    float64_intCast _ (by norm_num)
  have c2 : float64 ((2000000000000000 : Int) : ℚ) = ((2000000000000000 : Int) : ℚ) :=
    float64_intCast _ (by norm_num)
  have c0 : float64 ((0 : Int) : ℚ) = 0 := by simp [float64_zero]
  unfold fsub
  rw [c1, c2, c0, sub_zero, sub_zero, c1, c2]
  unfold fmul fdiv
  have r1 : float64 (((596078431372549 : Int) : ℚ) / ((2000000000000000 : Int) : ℚ)) =
      (5368997202826003 : ℤ) * 2 ^ ((-2 : ℤ) - 52) := by
    apply float64_eq_of <;> norm_num [abs_of_pos, abs_lt]
  rw [r1]
  have r2 : float64 ((5368997202826003 : ℤ) * 2 ^ ((-2 : ℤ) - 52) * 255) =
      (5348024557502464 : ℤ) * 2 ^ ((6 : ℤ) - 52) := by
    apply float64_eq_of <;> norm_num [abs_of_pos, abs_lt]
  rw [r2]
  norm_num [goInt]

/-- C4 (counterexample): with thresholds 20000 and 80000 milli-degrees and a
window mean of 50000, `calculateTargetSpeed` returns 127 and not 128, the
nearest integer to `255 * 0.5`.  With the same thresholds and the window mean
20235.5 it returns 0, whereas `255 * (20235.5 - 20000) / 60000`, rounded to the
nearest integer or rounded down, is 1 (the mean is truncated to 20235 first).
With the thresholds 0 and 2000000000000000 milli-degrees and the window mean
596078431372549 it returns 76, whereas the quotient rounded down is 75. -/
theorem calculateTargetSpeed_not_rounded :
    ((20 : Int) * 1000 = 20000 ∧ (80 : Int) * 1000 = 80000 ∧
      exSensor.Values.Reduce rolling.Avg = 50000 ∧
      (calculateTargetSpeed exSensorMap exFan).map TargetEval.value = some 127 ∧
      (calculateTargetSpeed exSensorMap exFan).map TargetEval.value ≠ some 128) ∧
    (fracSensor.Values.Reduce rolling.Avg = 40471 / 2 ∧
      (calculateTargetSpeed (fun _ => some fracSensor) exFan).map TargetEval.value = some 0 ∧
      roundNearest (255 * ((40471 / 2 : ℚ) - 20000) / (80000 - 20000)) = 1 ∧
      ⌊255 * ((40471 / 2 : ℚ) - 20000) / (80000 - 20000)⌋ = 1) ∧
    (goInt (wideSensor.Values.Reduce rolling.Avg) = 596078431372549 ∧
      wrapInt64 (2000000000000 * 1000) = 2000000000000000 ∧
      (calculateTargetSpeed (fun _ => some wideSensor) exFan).map TargetEval.value = some 76 ∧
      ⌊(255 * (((596078431372549 : Int) : ℚ) - ((0 : Int) : ℚ))) /
        (((2000000000000000 : Int) : ℚ) - ((0 : Int) : ℚ))⌋ = 75) := by
  have hfrac : goInt (fracSensor.Values.Reduce rolling.Avg) = 20235 := by
    simp [fracSensor, rolling.PointPolicy.Reduce, rolling.Avg]
    norm_num [goInt]
  have hwide : goInt (wideSensor.Values.Reduce rolling.Avg) = 596078431372549 := by
    simp [wideSensor, rolling.PointPolicy.Reduce, rolling.Avg]
    norm_num [goInt]
  have w0 : wrapInt64 (0 * 1000) = 0 := by decide
  have w1 : wrapInt64 (2000000000000 * 1000) = 2000000000000000 := by decide
  refine ⟨⟨by decide, by decide, ?_, ?_, ?_⟩, ⟨?_, ?_, ?_, ?_⟩, hwide, w1, ?_, ?_⟩
  · simp [exSensor, rolling.PointPolicy.Reduce, rolling.Avg]
    norm_num
  · rw [exFan_target]; rfl
  · rw [exFan_target]; decide
  · simp [fracSensor, rolling.PointPolicy.Reduce, rolling.Avg]
    norm_num
  · rw [calculateTargetSpeed_eq (fun _ => some fracSensor) exFan
      { Id := "cpu_fan", Platform := "nct6798", Fan := 1, Sensor := "cpu", NeverStop := false }
      fracSensor { Id := "cpu", Platform := "nct6798", Index := 1, Min := 20, Max := 80 }
      20000 80000 20235 rfl rfl rfl (by decide) (by decide) hfrac]
    have a : ¬ (20235 : Int) ≥ 80000 := by decide
    have b : ¬ (20235 : Int) ≤ 20000 := by decide
    simp only [a, b, if_false, Option.map_some']
    rw [(interpolation_value 20000 80000 20235 (by decide) (by decide)
      (by norm_num) (by norm_num)).2]
    decide
  · unfold roundNearest
    rw [Int.floor_eq_iff]
    constructor <;> norm_num
  · rw [Int.floor_eq_iff]
    constructor <;> norm_num
  · rw [calculateTargetSpeed_eq (fun _ => some wideSensor) exFan
      { Id := "cpu_fan", Platform := "nct6798", Fan := 1, Sensor := "cpu", NeverStop := false }
      wideSensor
      { Id := "cpu", Platform := "nct6798", Index := 1, Min := 0, Max := 2000000000000 }
      0 2000000000000000 596078431372549 rfl rfl rfl w0 w1 hwide]
    have a : ¬ (596078431372549 : Int) ≥ 2000000000000000 := by decide
    have b : ¬ (596078431372549 : Int) ≤ 0 := by decide
    simp only [a, b, if_false, Option.map_some']
    rw [wideSensor_value]
  · rw [Int.floor_eq_iff]
    constructor <;> norm_num

/-- The mapped command of `exFan` for the target 127: `40 + int(127/255 * 160)`. -/
theorem exFan_setPwmTarget : setPwmTarget exStore exFan 127 = some 119 := by
  have h := (mapped_offset 127 40 200 (by decide) (by decide) (by decide) (by decide)
    (by decide)).1 (by decide)
  have hmin : getMinPwmValue exStore exFan = some 40 := rfl
  have hmax : getMaxPwmValue exFan = 200 := rfl
  have hclamp : (if (127 : Int) > MaxPwmValue then MaxPwmValue
      else if (127 : Int) < MinPwmValue then MinPwmValue else 127) = 127 := by decide
  unfold setPwmTarget
  simp only [hmin, hmax, hclamp]
  rw [h]
  decide

/-- The control step of `exFan` on `exSysfs` writes 119. -/
theorem exFan_first_run :
    setOptimalFanSpeed exSensorMap exStore exFan exSysfs = some ⟨119, none, exSysfsAfter⟩ := by
  unfold setOptimalFanSpeed
  rw [exFan_target]
  simp only [setPwm, exFan_setPwmTarget]
  simp [getPwm, util.ReadIntFromFile, util.WriteIntToFile, exSysfs, exSysfsAfter, MinPwmValue,
    exFan]

/-- C5: if `setOptimalFanSpeed` runs twice with the same sensor state, fan bounds
and persisted minimum, and the write of the first run (if there was one)
succeeded with the output reading back the value written, then the second run
computes the same mapped command and writes nothing. -/
theorem setOptimalFanSpeed_idempotent (SensorMap : String → Option Sensor)
    (db : persistence.Store) (fan : Fan) (fs : util.Sysfs) (first : PwmOutcome)
    (hrun : setOptimalFanSpeed SensorMap db fan fs = some first)
    (hread : first.fs.writes ≠ fs.writes →
      first.err = none ∧ util.ReadIntFromFile first.fs fan.PwmOutput = (first.target, none)) :
    ∃ second, setOptimalFanSpeed SensorMap db fan first.fs = some second ∧
      second.target = first.target ∧ second.fs.writes = first.fs.writes ∧
      second.fs = first.fs := by
  unfold setOptimalFanSpeed at hrun ⊢
  cases hcalc : calculateTargetSpeed SensorMap fan with
  | none => simp [hcalc] at hrun
  | some t =>
    simp only [hcalc] at hrun ⊢
    cases htgt : setPwmTarget db fan t.value with
    | none => simp [setPwm, htgt] at hrun
    | some target =>
      obtain ⟨out, hout, hT, hw⟩ := setPwm_writes db fan t.value fs target htgt
      rw [hout] at hrun
      cases hrun
      have hcur : getPwm first.fs fan = target := by
        rcases hw with ⟨hc, hfs⟩ | ⟨_, hwr⟩
        · rw [hfs]; exact hc
        · have hne : first.fs.writes ≠ fs.writes := by
            rw [hwr]; simp
          obtain ⟨_, hrd⟩ := hread hne
          unfold getPwm
          rw [hrd, hT]
          simp
      obtain ⟨out2, hout2, hT2, hw2⟩ := setPwm_writes db fan t.value first.fs target htgt
      refine ⟨out2, hout2, by rw [hT2, hT], ?_, ?_⟩
      · rcases hw2 with ⟨_, hfs⟩ | ⟨hc, _⟩
        · rw [hfs]
        · exact absurd hcur hc
      · rcases hw2 with ⟨_, hfs⟩ | ⟨hc, _⟩
        · exact hfs
        · exact absurd hcur hc

/-- C5 at a fan whose first run writes 119 to an output that keeps it. -/
theorem setOptimalFanSpeed_idempotent_witness :
    setOptimalFanSpeed exSensorMap exStore exFan exSysfs = some ⟨119, none, exSysfsAfter⟩ ∧
    exSysfsAfter.writes ≠ exSysfs.writes ∧
    ∃ second, setOptimalFanSpeed exSensorMap exStore exFan exSysfsAfter = some second ∧
      second.target = 119 ∧ second.fs.writes = exSysfsAfter.writes ∧
      second.fs = exSysfsAfter :=
  ⟨exFan_first_run, by simp [exSysfsAfter, exSysfs],
    setOptimalFanSpeed_idempotent exSensorMap exStore exFan exSysfs ⟨119, none, exSysfsAfter⟩
      exFan_first_run (fun _ => ⟨rfl, by simp [util.ReadIntFromFile, exSysfsAfter]⟩)⟩

theorem lookup_isSome_iff (m : List (Int × rolling.PointPolicy)) (k : Int) :
    (∃ w, m.lookup k = some w) ↔ k ∈ m.map Prod.fst := by
  induction m with
  | nil => simp
  | cons e m ih =>
    obtain ⟨j, v⟩ := e
    by_cases hkj : k = j
    · subst hkj
      simp [List.lookup]
    · have hb : (k == j) = false := by simpa using hkj
      simp only [List.lookup, hb, List.map_cons, List.mem_cons, hkj, false_or]
      exact ih

theorem mem_sortedKeys (m : List (Int × rolling.PointPolicy)) (k : Int) :
    k ∈ sortedKeys m ↔ ∃ w, m.lookup k = some w := by
  unfold sortedKeys
  rw [(List.perm_insertionSort _ _).mem_iff, List.mem_dedup, lookup_isSome_iff]

theorem sortedKeys_sorted (m : List (Int × rolling.PointPolicy)) :
    List.Sorted (fun a b : Int => a ≤ b) (sortedKeys m) :=
  List.sorted_insertionSort _ _

theorem scanInv_init (m : List (Int × rolling.PointPolicy)) : ScanInv m [] ⟨255, 255, 0⟩ where
  start_le := le_refl _
  start_lower := by intro k w hk; simp at hk
  start_mem := Or.inl rfl
  rpm_nonneg := le_refl _
  rpm_upper := by intro k w hk; simp at hk
  max_mem := Or.inl ⟨rfl, rfl⟩

theorem scanInv_step (m : List (Int × rolling.PointPolicy)) (l : List Int) (st : Boundaries)
    (k : Int) (w : rolling.PointPolicy) (hk : m.lookup k = some w) (hle : ∀ j ∈ l, j ≤ k)
    (inv : ScanInv m l st) : ScanInv m (l ++ [k]) (scanStep m st k) := by
  obtain ⟨s1, s2, s3, r0, r1, r2⟩ := inv
  have hself : ∀ v, m.lookup k = some v → v = w := by
    intro v hv; rw [hk] at hv; cases hv; rfl
  unfold scanStep
  rw [hk]
  simp only
  by_cases hgt : avgRpmOf w > st.maxRpm
  · have hrpm : ∀ j v, j ∈ l ++ [k] → m.lookup j = some v → avgRpmOf v ≤ avgRpmOf w := by
      intro j v hj hjv
      rcases List.mem_append.mp hj with hj | hj
      · have := r1 j v hj hjv; omega
      · simp at hj; subst hj; rw [hself v hjv]
    have hfirst : ∀ j v, j ∈ l ++ [k] → m.lookup j = some v → avgRpmOf v = avgRpmOf w → k ≤ j := by
      intro j v hj hjv hEq
      rcases List.mem_append.mp hj with hj | hj
      · have := r1 j v hj hjv; omega
      · simp at hj; omega
    by_cases hst : avgRpmOf w > 0 ∧ k < st.startPwm
    · simp only [hgt, hst, if_true, and_self]
      refine ⟨?_, ?_, ?_, ?_, ?_, ?_⟩ <;> dsimp only
      · omega
      · intro j v hj hjv hpos
        rcases List.mem_append.mp hj with hj | hj
        · have := s2 j v hj hjv hpos; omega
        · simp at hj; omega
      · right; exact ⟨by simp, w, hk, hst.1⟩
      · omega
      · exact hrpm
      · right; exact ⟨by omega, by simp, ⟨w, hk, rfl⟩, hfirst⟩
    · simp only [hgt, hst, if_true, if_false]
      refine ⟨?_, ?_, ?_, ?_, ?_, ?_⟩ <;> dsimp only
      · exact s1
      · intro j v hj hjv hpos
        rcases List.mem_append.mp hj with hj | hj
        · exact s2 j v hj hjv hpos
        · simp at hj; subst hj; rw [hself v hjv] at hpos
          simp only [not_and, not_lt] at hst
          exact hst hpos
      · rcases s3 with h | ⟨h1, h2⟩
        · left; exact h
        · right; exact ⟨List.mem_append_left _ h1, h2⟩
      · omega
      · exact hrpm
      · right; exact ⟨by omega, by simp, ⟨w, hk, rfl⟩, hfirst⟩
  · have hmax : ∀ j v, j ∈ l ++ [k] → m.lookup j = some v → avgRpmOf v ≤ st.maxRpm := by
      intro j v hj hjv
      rcases List.mem_append.mp hj with hj | hj
      · exact r1 j v hj hjv
      · simp at hj; subst hj; rw [hself v hjv]; omega
    have hmem : (st.maxRpm = 0 ∧ st.maxPwm = 255) ∨
        (0 < st.maxRpm ∧ st.maxPwm ∈ l ++ [k] ∧
          (∃ w, m.lookup st.maxPwm = some w ∧ avgRpmOf w = st.maxRpm) ∧
          ∀ j v, j ∈ l ++ [k] → m.lookup j = some v → avgRpmOf v = st.maxRpm → st.maxPwm ≤ j) := by
      rcases r2 with h | ⟨h1, h2, h3, h4⟩
      · left; exact h
      · right
        refine ⟨h1, List.mem_append_left _ h2, h3, ?_⟩
        intro j v hj hjv hEq
        rcases List.mem_append.mp hj with hj | hj
        · exact h4 j v hj hjv hEq
        · simp at hj; subst hj; exact hle _ h2
    by_cases hst : avgRpmOf w > 0 ∧ k < st.startPwm
    · simp only [hgt, hst, if_true, if_false, and_self]
      refine ⟨?_, ?_, ?_, ?_, ?_, ?_⟩ <;> dsimp only
      · omega
      · intro j v hj hjv hpos
        rcases List.mem_append.mp hj with hj | hj
        · have := s2 j v hj hjv hpos; omega
        · simp at hj; omega
      · right; exact ⟨by simp, w, hk, hst.1⟩
      · exact r0
      · exact hmax
      · exact hmem
    · simp only [hgt, hst, if_false]
      refine ⟨s1, ?_, ?_, r0, hmax, hmem⟩
      · intro j v hj hjv hpos
        rcases List.mem_append.mp hj with hj | hj
        · exact s2 j v hj hjv hpos
        · simp at hj; subst hj; rw [hself v hjv] at hpos
          simp only [not_and, not_lt] at hst
          exact hst hpos
      · rcases s3 with h | ⟨h1, h2⟩
        · left; exact h
        · right; exact ⟨List.mem_append_left _ h1, h2⟩

theorem scanInv_foldl (m : List (Int × rolling.PointPolicy)) (l : List Int)
    (hkeys : ∀ k ∈ l, ∃ w, m.lookup k = some w)
    (hsorted : List.Sorted (fun a b : Int => a ≤ b) l) :
    ScanInv m l (l.foldl (scanStep m) ⟨255, 255, 0⟩) := by
  induction l using List.reverseRecOn with
  | nil => exact scanInv_init m
  | append_singleton l k ih =>
    rw [List.foldl_append]
    simp only [List.foldl_cons, List.foldl_nil]
    obtain ⟨w, hw⟩ := hkeys k (by simp)
    have hs := List.pairwise_append.mp hsorted
    refine scanInv_step m l _ k w hw (fun j hj => hs.2.2 j hj k (by simp)) ?_
    exact ih (fun j hj => hkeys j (List.mem_append_left _ hj)) hs.1

theorem learnBoundaries_inv (m : List (Int × rolling.PointPolicy)) :
    ScanInv m (sortedKeys m) (learnBoundaries (some m)) :=
  scanInv_foldl m (sortedKeys m) (fun k hk => (mem_sortedKeys m k).mp hk) (sortedKeys_sorted m)

theorem updatePwmBoundaries_fields (fan : Fan) :
    (updatePwmBoundaries fan).StartPwm = (learnBoundaries fan.FanCurveData).startPwm ∧
    (updatePwmBoundaries fan).MaxPwm = (learnBoundaries fan.FanCurveData).maxPwm ∧
    (updatePwmBoundaries fan).FanCurveData = fan.FanCurveData := by
  unfold updatePwmBoundaries
  simp only
  split_ifs with h1 h2 h2 <;> simp_all

theorem lookup_mem (m : List (Int × rolling.PointPolicy)) (k : Int) (w : rolling.PointPolicy)
    (h : m.lookup k = some w) : (k, w) ∈ m := by
  induction m with
  | nil => simp at h
  | cons e m ih =>
    obtain ⟨j, v⟩ := e
    by_cases hkj : k = j
    · subst hkj
      simp [List.lookup] at h
      simp [h]
    · have hb : (k == j) = false := by simpa using hkj
      simp only [List.lookup, hb] at h
      exact List.mem_cons_of_mem _ (ih h)

theorem avgRpmOf_pair (q : ℚ) (cap : Nat) : avgRpmOf ⟨cap, [q, q]⟩ = goInt q := by
  have h : rolling.PointPolicy.Reduce ⟨cap, [q, q]⟩ rolling.Avg = q := by
    simp [rolling.PointPolicy.Reduce, rolling.Avg]
  unfold avgRpmOf
  rw [h]

theorem avgRpmOf_still : avgRpmOf ⟨2, [0, 0]⟩ = 0 := by
  rw [avgRpmOf_pair]; simp [goInt]

theorem avgRpmOf_spinning : avgRpmOf ⟨2, [3000, 3000]⟩ = 3000 := by
  rw [avgRpmOf_pair]; norm_num [goInt]

theorem stepData_lookup (k : Int) (w : rolling.PointPolicy) (h : stepData.lookup k = some w) :
    0 ≤ k ∧ k < 255 ∧ (k < 30 → w = ⟨2, [0, 0]⟩) ∧ (30 ≤ k → w = ⟨2, [3000, 3000]⟩) := by
  have hm := lookup_mem _ _ _ h
  unfold stepData at hm
  rw [List.mem_map] at hm
  obtain ⟨p, hp, he⟩ := hm
  rw [List.mem_range] at hp
  simp only [Prod.mk.injEq] at he
  obtain ⟨h1, h2⟩ := he
  subst h1
  refine ⟨by omega, by omega, ?_, ?_⟩
  · intro hk
    have : p < 30 := by omega
    rw [← h2]; simp [this]
  · intro hk
    have : ¬ p < 30 := by omega
    rw [← h2]; simp [this]

theorem stepData_visited (k : Nat) (hk : k < 255) : ∃ w, stepData.lookup (k : Int) = some w := by
  rw [lookup_isSome_iff]
  unfold stepData
  simp only [List.map_map, List.mem_map, List.mem_range, Function.comp]
  exact ⟨k, hk, rfl⟩

theorem startPwm_of_no_positive (m : List (Int × rolling.PointPolicy))
    (h : ∀ k w, m.lookup k = some w → avgRpmOf w ≤ 0) :
    (learnBoundaries (some m)).startPwm = 255 := by
  rcases (learnBoundaries_inv m).start_mem with h1 | ⟨_, w, hw, hpos⟩
  · exact h1
  · have := h _ w hw; omega

theorem maxPwm_of_no_positive (m : List (Int × rolling.PointPolicy))
    (h : ∀ k w, m.lookup k = some w → avgRpmOf w ≤ 0) :
    (learnBoundaries (some m)).maxPwm = 255 := by
  rcases (learnBoundaries_inv m).max_mem with h1 | ⟨hpos, _, ⟨w, hw, he⟩, _⟩
  · exact h1.2
  · have := h _ w hw; omega

theorem maxPwm_of_positive (m : List (Int × rolling.PointPolicy))
    (h : ∃ k w, m.lookup k = some w ∧ 0 < avgRpmOf w) :
    ∃ w, m.lookup (learnBoundaries (some m)).maxPwm = some w ∧
      (∀ k v, m.lookup k = some v → avgRpmOf v ≤ avgRpmOf w) ∧
      (∀ k v, m.lookup k = some v → avgRpmOf v = avgRpmOf w →
        (learnBoundaries (some m)).maxPwm ≤ k) := by
  have inv := learnBoundaries_inv m
  obtain ⟨k, v, hkv, hpos⟩ := h
  have hk : k ∈ sortedKeys m := (mem_sortedKeys m k).mpr ⟨v, hkv⟩
  rcases inv.max_mem with h1 | ⟨_, _, ⟨w, hw, he⟩, hfirst⟩
  · have := inv.rpm_upper k v hk hkv; omega
  · refine ⟨w, hw, ?_, ?_⟩
    · intro j u hju
      rw [he]
      exact inv.rpm_upper j u ((mem_sortedKeys m j).mpr ⟨u, hju⟩) hju
    · intro j u hju hEq
      exact hfirst j u ((mem_sortedKeys m j).mpr ⟨u, hju⟩) hju (by rw [hEq, he])

theorem step_boundaries (m : List (Int × rolling.PointPolicy))
    (h30 : ∃ w, m.lookup 30 = some w)
    (hlow : ∀ k w, m.lookup k = some w → k < 30 → w.Reduce rolling.Avg = 0)
    (hhigh : ∀ k w, m.lookup k = some w → 30 ≤ k → w.Reduce rolling.Avg = 3000) :
    (learnBoundaries (some m)).startPwm = 30 ∧ (learnBoundaries (some m)).maxPwm = 30 := by
  have inv := learnBoundaries_inv m
  have hlow2 : ∀ k w, m.lookup k = some w → k < 30 → avgRpmOf w = 0 := by
    intro k w hw hk
    unfold avgRpmOf; rw [hlow k w hw hk]; simp [goInt]
  have hhigh2 : ∀ k w, m.lookup k = some w → 30 ≤ k → avgRpmOf w = 3000 := by
    intro k w hw hk
    unfold avgRpmOf; rw [hhigh k w hw hk]; norm_num [goInt]
  obtain ⟨w30, hw30⟩ := h30
  have h30mem : (30 : Int) ∈ sortedKeys m := (mem_sortedKeys m 30).mpr ⟨w30, hw30⟩
  have ha30 := hhigh2 30 w30 hw30 (le_refl _)
  constructor
  · have hle := inv.start_lower 30 w30 h30mem hw30 (by omega)
    rcases inv.start_mem with h1 | ⟨_, w, hw, hpos⟩
    · omega
    · by_contra hne
      have := hlow2 _ w hw (by omega)
      omega
  · rcases inv.max_mem with h1 | ⟨hpos, _, ⟨w, hw, he⟩, hfirst⟩
    · have := inv.rpm_upper 30 w30 h30mem hw30; omega
    · have hge : 30 ≤ (learnBoundaries (some m)).maxPwm := by
        by_contra hlt
        have := hlow2 _ w hw (by omega)
        omega
      have := hhigh2 _ w hw hge
      have := hfirst 30 w30 h30mem hw30 (by omega)
      omega

/-- C6 (amended): after `updatePwmBoundaries`, `StartPwm` is the lowest duty cycle
whose bucket has a positive mean RPM after truncation to an integer, capped at
255: it is at most 255, it is below every duty cycle with such a mean, and it is
255 or itself a visited duty cycle with such a mean.  If no duty cycle has a
positive truncated mean, `StartPwm` is 255 when there is curve data, and 0 when
there is no curve data at all. -/
theorem updatePwmBoundaries_startPwm (fan : Fan) :
    (fan.FanCurveData = none → (updatePwmBoundaries fan).StartPwm = 0) ∧
    (∀ m, fan.FanCurveData = some m →
      (updatePwmBoundaries fan).StartPwm ≤ 255 ∧
      (∀ k w, m.lookup k = some w → 0 < avgRpmOf w → (updatePwmBoundaries fan).StartPwm ≤ k) ∧
      ((updatePwmBoundaries fan).StartPwm = 255 ∨
        ∃ w, m.lookup (updatePwmBoundaries fan).StartPwm = some w ∧ 0 < avgRpmOf w) ∧
      ((∀ k w, m.lookup k = some w → avgRpmOf w ≤ 0) →
        (updatePwmBoundaries fan).StartPwm = 255)) := by
  rw [(updatePwmBoundaries_fields fan).1]
  constructor
  · intro h; rw [h]; rfl
  · intro m h
    rw [h]
    have inv := learnBoundaries_inv m
    refine ⟨inv.start_le, ?_, ?_, startPwm_of_no_positive m⟩
    · intro k w hk hpos
      exact inv.start_lower k w ((mem_sortedKeys m k).mpr ⟨w, hk⟩) hk hpos
    · rcases inv.start_mem with h1 | ⟨_, h2⟩
      · left; exact h1
      · right; exact h2

theorem stepData_30 : stepData.lookup 30 = some ⟨2, [3000, 3000]⟩ := by
  obtain ⟨w, hw⟩ := stepData_visited 30 (by decide)
  have := (stepData_lookup 30 w hw).2.2.2 (le_refl _)
  rw [← this]; exact hw

/-- C6 (amended) at a fan without curve data, at the step fan and at a fan that
never turned. -/
theorem updatePwmBoundaries_startPwm_witness :
    (updatePwmBoundaries exFan).StartPwm = 0 ∧
    (updatePwmBoundaries stepFan).StartPwm ≤ 255 ∧
    (updatePwmBoundaries stepFan).StartPwm ≤ 30 ∧
    (updatePwmBoundaries stalledFan).StartPwm = 255 :=
  ⟨(updatePwmBoundaries_startPwm exFan).1 rfl,
    ((updatePwmBoundaries_startPwm stepFan).2 stepData rfl).1,
    ((updatePwmBoundaries_startPwm stepFan).2 stepData rfl).2.1 30 _ stepData_30
      (by rw [avgRpmOf_spinning]; decide),
    ((updatePwmBoundaries_startPwm stalledFan).2 stalledData rfl).2.2.2 (by
      intro k w h
      have hm := lookup_mem _ _ _ h
      simp only [stalledData, List.mem_singleton, Prod.mk.injEq] at hm
      rw [hm.2]
      exact le_of_eq avgRpmOf_still)⟩

theorem avgRpmOf_slow : avgRpmOf ⟨2, [0, 1]⟩ = 0 := by
  simp [avgRpmOf, rolling.PointPolicy.Reduce, rolling.Avg]
  norm_num [goInt]

theorem avgRpmOf_close : avgRpmOf ⟨2, [3000, 3001]⟩ = 3000 := by
  simp [avgRpmOf, rolling.PointPolicy.Reduce, rolling.Avg]
  norm_num [goInt]

/-- C6 (counterexample): on curve data whose only bucket has mean RPM 0, no duty
cycle has a nonzero mean, yet `StartPwm` becomes 255 and not 0; on curve data
whose only bucket, at duty cycle 10, has the nonzero mean 1/2, `StartPwm`
becomes 255 and not 10. -/
theorem updatePwmBoundaries_startPwm_counterexample :
    ((∀ k w, stalledData.lookup k = some w → w.Reduce rolling.Avg = 0) ∧
      (updatePwmBoundaries stalledFan).StartPwm = 255 ∧
      (updatePwmBoundaries stalledFan).StartPwm ≠ 0) ∧
    ((∀ k w, slowData.lookup k = some w → k = 10 ∧ w.Reduce rolling.Avg = 1 / 2) ∧
      (∃ w, slowData.lookup 10 = some w) ∧
      (updatePwmBoundaries slowFan).StartPwm = 255 ∧
      (updatePwmBoundaries slowFan).StartPwm ≠ 10) := by
  have hstalled : ∀ k w, stalledData.lookup k = some w → k = 0 ∧ w = ⟨2, [0, 0]⟩ := by
    intro k w h
    have hm := lookup_mem _ _ _ h
    simpa [stalledData] using hm
  have hslow : ∀ k w, slowData.lookup k = some w → k = 10 ∧ w = ⟨2, [0, 1]⟩ := by
    intro k w h
    have hm := lookup_mem _ _ _ h
    simpa [slowData] using hm
  have h1 : (updatePwmBoundaries stalledFan).StartPwm = 255 := by
    rw [(updatePwmBoundaries_fields stalledFan).1]
    apply startPwm_of_no_positive
    intro k w h
    rw [(hstalled k w h).2]
    exact le_of_eq avgRpmOf_still
  have h2 : (updatePwmBoundaries slowFan).StartPwm = 255 := by
    rw [(updatePwmBoundaries_fields slowFan).1]
    apply startPwm_of_no_positive
    intro k w h
    rw [(hslow k w h).2]
    exact le_of_eq avgRpmOf_slow
  refine ⟨⟨?_, h1, by rw [h1]; decide⟩, ⟨?_, ⟨_, rfl⟩, h2, by rw [h2]; decide⟩⟩
  · intro k w h
    rw [(hstalled k w h).2]
    simp [rolling.PointPolicy.Reduce, rolling.Avg]
  · intro k w h
    refine ⟨(hslow k w h).1, ?_⟩
    rw [(hslow k w h).2]
    simp [rolling.PointPolicy.Reduce, rolling.Avg]

/-- C7 (amended): after `updatePwmBoundaries`, if some visited duty cycle has a
positive mean RPM after truncation to an integer, `MaxPwm` is a visited duty
cycle whose truncated mean is the highest among all visited duty cycles, and the
smallest one among those tied for it; if there is no curve data, or no visited
duty cycle has a positive truncated mean, `MaxPwm` is 255.  On the step fan whose
mean RPM is 0 for every duty cycle below 30 and 3000 for every duty cycle from
30 up, the result is `StartPwm = 30` and `MaxPwm = 30`. -/
theorem updatePwmBoundaries_maxPwm (fan : Fan) :
    (fan.FanCurveData = none → (updatePwmBoundaries fan).MaxPwm = 255) ∧
    (∀ m, fan.FanCurveData = some m →
      ((∀ k w, m.lookup k = some w → avgRpmOf w ≤ 0) →
        (updatePwmBoundaries fan).MaxPwm = 255) ∧
      ((∃ k w, m.lookup k = some w ∧ 0 < avgRpmOf w) →
        ∃ w, m.lookup (updatePwmBoundaries fan).MaxPwm = some w ∧
          (∀ k v, m.lookup k = some v → avgRpmOf v ≤ avgRpmOf w) ∧
          (∀ k v, m.lookup k = some v → avgRpmOf v = avgRpmOf w →
            (updatePwmBoundaries fan).MaxPwm ≤ k)) ∧
      ((∃ w, m.lookup 30 = some w) →
        (∀ k w, m.lookup k = some w → k < 30 → w.Reduce rolling.Avg = 0) →
        (∀ k w, m.lookup k = some w → 30 ≤ k → w.Reduce rolling.Avg = 3000) →
        (updatePwmBoundaries fan).StartPwm = 30 ∧ (updatePwmBoundaries fan).MaxPwm = 30)) := by
  rw [(updatePwmBoundaries_fields fan).1, (updatePwmBoundaries_fields fan).2.1]
  constructor
  · intro h; rw [h]; rfl
  · intro m h
    rw [h]
    exact ⟨maxPwm_of_no_positive m, maxPwm_of_positive m, step_boundaries m⟩

/-- C7 (amended) at a fan without curve data and at the step fan. -/
theorem updatePwmBoundaries_maxPwm_witness :
    (updatePwmBoundaries exFan).MaxPwm = 255 ∧
    (updatePwmBoundaries stepFan).StartPwm = 30 ∧ (updatePwmBoundaries stepFan).MaxPwm = 30 :=
  ⟨(updatePwmBoundaries_maxPwm exFan).1 rfl,
    ((updatePwmBoundaries_maxPwm stepFan).2 stepData rfl).2.2 ⟨_, stepData_30⟩
      (fun k w h hk => by
        rw [(stepData_lookup k w h).2.2.1 hk]
        simp [rolling.PointPolicy.Reduce, rolling.Avg])
      (fun k w h hk => by
        rw [(stepData_lookup k w h).2.2.2 hk]
        simp [rolling.PointPolicy.Reduce, rolling.Avg])⟩

/-- C7 (counterexample): on non-empty curve data whose only bucket has mean RPM
0, `MaxPwm` becomes 255, which is not a visited duty cycle; on curve data with
mean 3000 at duty cycle 10 and mean 3000.5 at duty cycle 20, `MaxPwm` becomes 10
although the bucket of 20 has the higher mean. -/
theorem updatePwmBoundaries_maxPwm_counterexample :
    (stalledData ≠ [] ∧ (updatePwmBoundaries stalledFan).MaxPwm = 255 ∧
      stalledData.lookup 255 = none) ∧
    (closeData.lookup 10 = some ⟨2, [3000, 3000]⟩ ∧
      closeData.lookup 20 = some ⟨2, [3000, 3001]⟩ ∧
      rolling.PointPolicy.Reduce ⟨2, [3000, 3000]⟩ rolling.Avg <
        rolling.PointPolicy.Reduce ⟨2, [3000, 3001]⟩ rolling.Avg ∧
      (updatePwmBoundaries closeFan).MaxPwm = 10) := by
  have hstalled : ∀ k w, stalledData.lookup k = some w → k = 0 ∧ w = ⟨2, [0, 0]⟩ := by
    intro k w h
    have hm := lookup_mem _ _ _ h
    simpa [stalledData] using hm
  have hclose : ∀ k w, closeData.lookup k = some w →
      (k = 10 ∧ w = ⟨2, [3000, 3000]⟩) ∨ (k = 20 ∧ w = ⟨2, [3000, 3001]⟩) := by
    intro k w h
    have hm := lookup_mem _ _ _ h
    simpa [closeData] using hm
  have h10 : closeData.lookup 10 = some ⟨2, [3000, 3000]⟩ := rfl
  have h20 : closeData.lookup 20 = some ⟨2, [3000, 3001]⟩ := rfl
  refine ⟨⟨by simp [stalledData], ?_, rfl⟩, h10, h20, ?_, ?_⟩
  · rw [(updatePwmBoundaries_fields stalledFan).2.1]
    apply maxPwm_of_no_positive
    intro k w h
    rw [(hstalled k w h).2]
    exact le_of_eq avgRpmOf_still
  · simp [rolling.PointPolicy.Reduce, rolling.Avg]
    norm_num
  · rw [(updatePwmBoundaries_fields closeFan).2.1]
    obtain ⟨w, hw, _, hfirst⟩ := maxPwm_of_positive closeData
      ⟨10, _, h10, by rw [avgRpmOf_spinning]; decide⟩
    have hle := hfirst 10 _ h10 (by
      rcases hclose _ w hw with ⟨_, e⟩ | ⟨_, e⟩
      · rw [e]
      · rw [e, avgRpmOf_spinning, avgRpmOf_close])
    rcases hclose _ w hw with ⟨e, _⟩ | ⟨e, _⟩
    · exact e
    · have e2 : (learnBoundaries (some closeData)).maxPwm = 20 := e
      rw [e2] at hle
      omega

/-- The update of `coolSensor` with the reading 50000. -/
theorem coolSensor_update :
    updateSensor coolSysfs exStore coolSensor =
      some ⟨none, { coolSensor with
        Values := { capacity := 4, samples := [42000, 43000, 50000, 50000] } },
        (persistence.StoreInt BucketSensors coolSensor.Input 50000 exStore).2⟩ := by
  have h : float64 (50000 : ℚ) = 50000 := by
    have := float64_intCast 50000 (by norm_num)
    simpa using this
  simp [updateSensor, util.ReadIntFromFile, coolSysfs, coolSensor, persistence.StoreInt,
    exStore, rolling.PointPolicy.Append, h]

/-- C9 (the code at the failing input): the sensor's maximum threshold is 80
degrees, that is 80000 milli-degrees, and the reading 50000 milli-degrees does
not exceed it; `updateSensor` nevertheless appends the reading twice (a single
append would leave the window `[41000, 42000, 43000, 50000]`). -/
theorem updateSensor_appends_twice_below_max :
    (50000 : Int) ≤ 80 * 1000 ∧
    (updateSensor coolSysfs exStore coolSensor).map (fun out => out.sensor.Values.samples) =
      some [42000, 43000, 50000, 50000] ∧
    (coolSensor.Values.Append 50000).samples = [41000, 42000, 43000, 50000] ∧
    ((coolSensor.Values.Append 50000).Append 50000).samples = [42000, 43000, 50000, 50000] := by
  refine ⟨by decide, ?_, ?_, ?_⟩
  · rw [coolSensor_update]; rfl
  · simp [coolSensor, rolling.PointPolicy.Append]
  · simp [coolSensor, rolling.PointPolicy.Append]

/-- C10 (the code at the failing input): the write of mode 1 to `pwm1_enable`
succeeds and the file then reads 2; `setPwmEnabled` returns no error. -/
theorem setPwmEnabled_ignores_mismatch :
    (setPwmEnabled exFan 1 stuckSysfs).1 = none ∧
    util.ReadIntFromFile (setPwmEnabled exFan 1 stuckSysfs).2 (exFan.PwmOutput ++ "_enable") =
      (2, none) ∧
    (setPwmEnabled exFan 1 stuckSysfs).2.writes = [(exFan.PwmOutput ++ "_enable", 1)] := by
  simp [setPwmEnabled, util.WriteIntToFile, util.ReadIntFromFile, stuckSysfs]

/-- The reading of `temp2_input` fails in `flakySysfs`, so `updateSensor` returns
the error and leaves the sensor as it is. -/
theorem brokenSensor_update :
    updateSensor flakySysfs exStore brokenSensor =
      some ⟨some "input/output error", brokenSensor, exStore⟩ := by
  simp [updateSensor, util.ReadIntFromFile, flakySysfs, brokenSensor]

/-- C11 (the code at the failing input): the two sensors of the controller are
configured and reading the first one fails.  `measureTempSensors` ends in
`log.Fatal` with that error, and the window of the second sensor, whose input
reads 50000, is left as it was (`updateSensor` alone would have appended the
reading to it). -/
theorem measureTempSensors_fatal_on_read_error :
    (util.ReadIntFromFile flakySysfs brokenSensor.Input).2 = some "input/output error" ∧
    util.ReadIntFromFile flakySysfs coolSensor.Input = (50000, none) ∧
    measureTempSensors flakySysfs exStore [exController] =
      (TickEnd.fatal "input/output error", [exController], exStore) ∧
    (updateSensor flakySysfs exStore coolSensor).map (fun out => out.sensor.Values.samples) =
      some [42000, 43000, 50000, 50000] := by
  refine ⟨by simp [util.ReadIntFromFile, flakySysfs, brokenSensor],
    by simp [util.ReadIntFromFile, flakySysfs, coolSensor], ?_, ?_⟩
  · simp only [measureTempSensors, exController, measureSensors]
    rw [brokenSensor_update]
    simp [brokenSensor]
  · have h : float64 (50000 : ℚ) = 50000 := by
      have := float64_intCast 50000 (by norm_num)
      simpa using this
    simp [updateSensor, util.ReadIntFromFile, flakySysfs, coolSensor, persistence.StoreInt,
      exStore, rolling.PointPolicy.Append, h]

/-- C12 (amended): for every target `t` in `0..255` and every fan with effective
bounds `0 ≤ effectiveMin ≤ effectiveMax ≤ 255`, the command `setPwm` computes is
`effectiveMin` plus `(t / 255) * (effectiveMax - effectiveMin)` rounded down to an
integer (not to the nearest one), or one less than that when the product is an
integer (the float64 product may fall just below it); `t = 0` maps to
`effectiveMin` and `t = 255` maps to `effectiveMax`. -/
theorem setPwm_maps_by_truncation (db : persistence.Store) (fan : Fan) (t : Int)
    (fs : util.Sysfs) (effectiveMin : Int)
    (hmin : getMinPwmValue db fan = some effectiveMin)
    (h0 : 0 ≤ t) (h1 : t ≤ 255) (hlo : 0 ≤ effectiveMin)
    (hle : effectiveMin ≤ getMaxPwmValue fan) (hhi : getMaxPwmValue fan ≤ 255) :
    ∃ out, setPwm db fan t fs = some out ∧
      (out.target = effectiveMin +
          ⌊((t : ℚ) / 255) * ((getMaxPwmValue fan : ℚ) - (effectiveMin : ℚ))⌋ ∨
        ((⌊((t : ℚ) / 255) * ((getMaxPwmValue fan : ℚ) - (effectiveMin : ℚ))⌋ : ℚ) =
            ((t : ℚ) / 255) * ((getMaxPwmValue fan : ℚ) - (effectiveMin : ℚ)) ∧
          out.target = effectiveMin +
            ⌊((t : ℚ) / 255) * ((getMaxPwmValue fan : ℚ) - (effectiveMin : ℚ))⌋ - 1)) ∧
      (t = 0 → out.target = effectiveMin) ∧
      (t = 255 → out.target = getMaxPwmValue fan) := by
  have hclamp : (if t > MaxPwmValue then MaxPwmValue
      else if t < MinPwmValue then MinPwmValue else t : Int) = t := by
    unfold MaxPwmValue MinPwmValue
    split_ifs <;> omega
  have ht : setPwmTarget db fan t = some (effectiveMin + goInt
      (fmul (fdiv (float64 (t : ℚ)) (MaxPwmValue : ℚ))
        (fsub (float64 (getMaxPwmValue fan : ℚ)) (float64 (effectiveMin : ℚ))))) := by
    unfold setPwmTarget
    simp only [hmin, hclamp]
  obtain ⟨out, hout, htgt, _⟩ := setPwm_writes db fan t fs _ ht
  obtain ⟨m1, m2, m3, m4, _⟩ := mapped_offset t effectiveMin (getMaxPwmValue fan) h0 h1 hlo hle hhi
  have hX : ((t : ℚ) / 255) * ((getMaxPwmValue fan : ℚ) - (effectiveMin : ℚ)) =
      ((t * (getMaxPwmValue fan - effectiveMin) : Int) : ℚ) / ((255 : Int) : ℚ) := by
    push_cast
    ring
  have hfloor : ⌊((t : ℚ) / 255) * ((getMaxPwmValue fan : ℚ) - (effectiveMin : ℚ))⌋ =
      t * (getMaxPwmValue fan - effectiveMin) / 255 := by
    rw [hX, floor_intCast_div _ _ (by norm_num)]
  refine ⟨out, hout, ?_, ?_, ?_⟩
  · rw [hfloor, htgt]
    by_cases hdiv : t * (getMaxPwmValue fan - effectiveMin) % 255 = 0
    · rcases m2 hdiv with e | e
      · left; rw [e]
      · right
        refine ⟨?_, by rw [e]; ring⟩
        rw [hX]
        have hmul : 255 * (t * (getMaxPwmValue fan - effectiveMin) / 255) =
            t * (getMaxPwmValue fan - effectiveMin) := by
          have := Int.ediv_add_emod (t * (getMaxPwmValue fan - effectiveMin)) 255
          rw [hdiv] at this
          linarith
        have hq : (255 : ℚ) * ((t * (getMaxPwmValue fan - effectiveMin) / 255 : Int) : ℚ) =
            ((t * (getMaxPwmValue fan - effectiveMin) : Int) : ℚ) := by exact_mod_cast hmul
        rw [← hq]
        push_cast
        field_simp
    · left; rw [m1 hdiv]
  · intro e; rw [htgt, m3 e]; ring
  · intro e; rw [htgt, m4 e]; ring

/-- C12 (amended) at a fan with persisted minimum 40 and maximum 200, target 127. -/
theorem setPwm_maps_by_truncation_witness :
    getMinPwmValue exStore exFan = some 40 ∧ (0 : Int) ≤ 127 ∧ (127 : Int) ≤ 255 ∧
    (0 : Int) ≤ 40 ∧ 40 ≤ getMaxPwmValue exFan ∧ getMaxPwmValue exFan ≤ 255 ∧
    ∃ out, setPwm exStore exFan 127 exSysfs = some out ∧
      (out.target = 40 +
          ⌊(((127 : Int) : ℚ) / 255) * ((getMaxPwmValue exFan : ℚ) - ((40 : Int) : ℚ))⌋ ∨
        ((⌊(((127 : Int) : ℚ) / 255) * ((getMaxPwmValue exFan : ℚ) - ((40 : Int) : ℚ))⌋ : ℚ) =
            (((127 : Int) : ℚ) / 255) * ((getMaxPwmValue exFan : ℚ) - ((40 : Int) : ℚ)) ∧
          out.target = 40 +
            ⌊(((127 : Int) : ℚ) / 255) * ((getMaxPwmValue exFan : ℚ) - ((40 : Int) : ℚ))⌋ - 1)) ∧
      ((127 : Int) = 0 → out.target = 40) ∧
      ((127 : Int) = 255 → out.target = getMaxPwmValue exFan) :=
  ⟨rfl, by decide, by decide, by decide, by decide, by decide,
    setPwm_maps_by_truncation exStore exFan 127 exSysfs 40 rfl (by decide) (by decide)
      (by decide) (by decide) (by decide)⟩

/-- The mapped command of the never-stop fan with bounds 30 and 200 for the target
147: the float64 product `(147 / 255) * 170` is just below 98. -/
theorem exNeverStopFan_setPwmTarget : setPwmTarget exStore exNeverStopFan 147 = some 127 := by
  have hmin : getMinPwmValue exStore exNeverStopFan = some 30 := rfl
  have hmax : getMaxPwmValue exNeverStopFan = 200 := rfl
  have hclamp : (if (147 : Int) > MaxPwmValue then MaxPwmValue
      else if (147 : Int) < MinPwmValue then MinPwmValue else 147) = 147 := by decide
  unfold setPwmTarget
  simp only [hmin, hmax, hclamp]
  rw [mapping_operands 147 30 200 (by decide) (by decide) (by decide) (by decide) (by decide)]
  have r1 : float64 (((147 : Int) : ℚ) / 255) = (5192385452733042 : ℤ) * 2 ^ ((-1 : ℤ) - 52) := by
    apply float64_eq_of <;> norm_num [abs_of_pos, abs_lt]
  rw [r1]
  have r2 : float64 ((5192385452733042 : ℤ) * 2 ^ ((-1 : ℤ) - 52) * ((200 - 30 : Int) : ℚ)) =
      (6896136929411071 : ℤ) * 2 ^ ((6 : ℤ) - 52) := by
    apply float64_eq_of <;> norm_num [abs_of_pos, abs_lt]
  rw [r2]
  norm_num [goInt]

/-- The mapped command of the fan with bounds 0 and `2 ^ 54 + 1` for the target
255: the upper bound converts to the float64 value `2 ^ 54`. -/
theorem hugeFan_setPwmTarget : setPwmTarget exStore hugeFan 255 = some 18014398509481984 := by
  have hmin : getMinPwmValue exStore hugeFan = some 0 := rfl
  have hmax : getMaxPwmValue hugeFan = 18014398509481985 := rfl
  have hclamp : (if (255 : Int) > MaxPwmValue then MaxPwmValue
      else if (255 : Int) < MinPwmValue then MinPwmValue else 255) = 255 := by decide
  unfold setPwmTarget
  simp only [hmin, hmax, hclamp]
  have c1 : float64 ((255 : Int) : ℚ) = ((255 : Int) : ℚ) := float64_intCast _ (by norm_num)
  have c0 : float64 ((0 : Int) : ℚ) = 0 := by simp [float64_zero]
  have c2 : float64 ((18014398509481985 : Int) : ℚ) = ((18014398509481984 : Int) : ℚ) := by
    rw [float64_eq_of _ 54 4503599627370496 (by norm_num [abs_of_pos])
      (by norm_num [abs_of_pos]) (by norm_num [abs_lt])]
    norm_num
  have c3 : float64 ((18014398509481984 : Int) : ℚ) = ((18014398509481984 : Int) : ℚ) := by
    apply float64_of_isFloat64
    exact ⟨4503599627370496, 2, by norm_num, by norm_num⟩
  have one : float64 (((255 : Int) : ℚ) / (MaxPwmValue : ℚ)) = 1 := by
    have : ((255 : Int) : ℚ) / (MaxPwmValue : ℚ) = ((1 : Int) : ℚ) := by norm_num [MaxPwmValue]
    rw [this, float64_intCast 1 (by norm_num)]
    norm_num
  unfold fmul fdiv fsub
  rw [c1, c0, c2, sub_zero, c3, one, one_mul, c3]
  norm_num [goInt]

/-- C12 (counterexample): for the fan with effective bounds 40 and 200 and the
target 127, `setPwm` computes the command 119, whereas
`40 + round((127 / 255) * (200 - 40))`, rounded to the nearest integer, is 120.
For the fan with effective bounds 30 and 200 and the target 147 the product
`(147 / 255) * (200 - 30)` is 98, yet the command is 127 and not 128.  For the fan
with effective bounds 0 and `2 ^ 54 + 1` the target 255 is mapped to `2 ^ 54` and
not to the upper bound. -/
theorem setPwm_not_rounded :
    (getMinPwmValue exStore exFan = some 40 ∧ getMaxPwmValue exFan = 200 ∧
      (setPwm exStore exFan 127 exSysfs).map PwmOutcome.target = some 119 ∧
      40 + roundNearest (((127 : ℚ) / 255) * ((200 : ℚ) - (40 : ℚ))) = 120) ∧
    (getMinPwmValue exStore exNeverStopFan = some 30 ∧ getMaxPwmValue exNeverStopFan = 200 ∧
      (setPwm exStore exNeverStopFan 147 exSysfs).map PwmOutcome.target = some 127 ∧
      ((147 : ℚ) / 255) * ((200 : ℚ) - (30 : ℚ)) = 98 ∧
      30 + roundNearest (((147 : ℚ) / 255) * ((200 : ℚ) - (30 : ℚ))) = 128) ∧
    (getMinPwmValue exStore hugeFan = some 0 ∧ getMaxPwmValue hugeFan = 18014398509481985 ∧
      (setPwm exStore hugeFan 255 exSysfs).map PwmOutcome.target = some 18014398509481984) := by
  refine ⟨⟨rfl, rfl, ?_, ?_⟩, ⟨rfl, rfl, ?_, by norm_num, ?_⟩, rfl, rfl, ?_⟩
  · obtain ⟨out, hout, htgt, _⟩ := setPwm_writes exStore exFan 127 exSysfs 119 exFan_setPwmTarget
    rw [hout]
    simp [htgt]
  · have : roundNearest (((127 : ℚ) / 255) * ((200 : ℚ) - (40 : ℚ))) = 80 := by
      unfold roundNearest
      rw [Int.floor_eq_iff]
      constructor <;> norm_num
    rw [this]
    decide
  · obtain ⟨out, hout, htgt, _⟩ :=
      setPwm_writes exStore exNeverStopFan 147 exSysfs 127 exNeverStopFan_setPwmTarget
    rw [hout]
    simp [htgt]
  · have : roundNearest (((147 : ℚ) / 255) * ((200 : ℚ) - (30 : ℚ))) = 98 := by
      unfold roundNearest
      rw [Int.floor_eq_iff]
      constructor <;> norm_num
    rw [this]
    decide
  · obtain ⟨out, hout, htgt, _⟩ :=
      setPwm_writes exStore hugeFan 255 exSysfs 18014398509481984 hugeFan_setPwmTarget
    rw [hout]
    simp [htgt]

/-- C13: if the curve data is absent, or all its duty-cycle keys lie in
`0..255`, then after `updatePwmBoundaries` the stored bounds satisfy
`0 ≤ StartPwm ≤ MaxPwm ≤ 255`, whatever the samples in the buckets and whatever
the bounds before. -/
theorem updatePwmBoundaries_bounds (fan : Fan)
    (hkeys : ∀ m, fan.FanCurveData = some m → ∀ e ∈ m, 0 ≤ e.1 ∧ e.1 ≤ 255) :
    0 ≤ (updatePwmBoundaries fan).StartPwm ∧
    (updatePwmBoundaries fan).StartPwm ≤ (updatePwmBoundaries fan).MaxPwm ∧
    (updatePwmBoundaries fan).MaxPwm ≤ 255 := by
  rw [(updatePwmBoundaries_fields fan).1, (updatePwmBoundaries_fields fan).2.1]
  cases hdata : fan.FanCurveData with
  | none => simp [learnBoundaries]
  | some m =>
    have hk : ∀ k w, m.lookup k = some w → 0 ≤ k ∧ k ≤ 255 := by
      intro k w h
      exact hkeys m hdata (k, w) (lookup_mem m k w h)
    have inv := learnBoundaries_inv m
    rcases inv.max_mem with ⟨hr, hm⟩ | ⟨hpos, hmem, ⟨w, hw, he⟩, _⟩
    · have hs : (learnBoundaries (some m)).startPwm = 255 := by
        apply startPwm_of_no_positive
        intro k v hkv
        have := inv.rpm_upper k v ((mem_sortedKeys m k).mpr ⟨v, hkv⟩) hkv
        omega
      rw [hs, hm]
      omega
    · have hb := hk _ w hw
      have hle := inv.start_lower _ w hmem hw (by omega)
      refine ⟨?_, hle, hb.2⟩
      rcases inv.start_mem with h1 | ⟨_, v, hv, _⟩
      · omega
      · exact (hk _ v hv).1

/-- C13 at the step fan, whose curve data has the keys `0..254`, and at a fan
without curve data. -/
theorem updatePwmBoundaries_bounds_witness :
    (0 ≤ (updatePwmBoundaries stepFan).StartPwm ∧
      (updatePwmBoundaries stepFan).StartPwm ≤ (updatePwmBoundaries stepFan).MaxPwm ∧
      (updatePwmBoundaries stepFan).MaxPwm ≤ 255) ∧
    (0 ≤ (updatePwmBoundaries exFan).StartPwm ∧
      (updatePwmBoundaries exFan).StartPwm ≤ (updatePwmBoundaries exFan).MaxPwm ∧
      (updatePwmBoundaries exFan).MaxPwm ≤ 255) :=
  ⟨updatePwmBoundaries_bounds stepFan (by
      intro m hm e he
      have hm2 : stepData = m := Option.some.inj hm
      subst hm2
      unfold stepData at he
      rw [List.mem_map] at he
      obtain ⟨p, hp, rfl⟩ := he
      rw [List.mem_range] at hp
      simp only
      omega),
    updatePwmBoundaries_bounds exFan (by
      intro m hm
      exact absurd hm (by simp [exFan]))⟩

end backend

namespace fans

theorem utf8ByteSize_pos_iff (s : String) : s.utf8ByteSize > 0 ↔ s ≠ "" := by
  obtain ⟨cs⟩ := s
  cases cs with
  | nil => simp [String.utf8ByteSize, String.utf8ByteSize.go]
  | cons c cs =>
    have hc := Char.utf8Size_pos c
    have hne : (⟨c :: cs⟩ : String) ≠ "" := by
      intro h
      have := congrArg String.data h
      simp at this
    simp only [String.utf8ByteSize, String.utf8ByteSize.go, gt_iff_lt, ne_eq, hne,
      not_false_eq_true, iff_true]
    omega

/-- C8: a file-backed fan supports no feature and its `GetRpm` returns the fixed
value 0, whatever its fields are; a hardware-monitor fan supports the RPM sensor
feature exactly when its `RpmInput` path is non-empty, and no other feature. -/
theorem capability_gating (FeatureRpmSensor : Int) (fileFan : FileFan) (hwMonFan : HwMonFan)
    (feature : Int) :
    fileFan.Supports FeatureRpmSensor feature = false ∧ fileFan.GetRpm = 0 ∧
    (hwMonFan.Supports FeatureRpmSensor FeatureRpmSensor = true ↔ hwMonFan.RpmInput ≠ "") ∧
    (feature ≠ FeatureRpmSensor → hwMonFan.Supports FeatureRpmSensor feature = false) := by
  refine ⟨?_, rfl, ?_, ?_⟩
  · unfold FileFan.Supports; split <;> rfl
  · unfold HwMonFan.Supports
    simp only [if_true, decide_eq_true_eq]
    exact utf8ByteSize_pos_iff _
  · intro h
    unfold HwMonFan.Supports
    simp [h]

/-- C8 at a file-backed fan and a hardware-monitor fan with an RPM input. -/
theorem capability_gating_witness :
    exFileFan.Supports 1 2 = false ∧ exFileFan.GetRpm = 0 ∧
    (exHwMonFan.Supports 1 1 = true ↔ exHwMonFan.RpmInput ≠ "") ∧
    ((2 : Int) ≠ 1 → exHwMonFan.Supports 1 2 = false) :=
  capability_gating 1 exFileFan exHwMonFan 2

end fans
